import Mathlib

/-!
# Verification of the pyhelp core (weather_reader.py, processing.py)

Shallow embedding of the pyhelp repository's two source modules:

* `pyhelp/weather_reader.py` — CWEEDS file reading and joining, and the
  HELP fixed-width input writer;
* `pyhelp/processing.py` — the monthly/daily HELP report parsers and the
  batch runner.

Modelling conventions:

* Python `int` is `ℤ`, float values are `ℚ` (binary floating point is
  abstracted to exact rationals; `astype('float32')`, which only quantizes
  values, is abstracted to the identity, and `astype('uint16')` is taken
  modulo 2^16 as on the machine).
* Python exceptions (`IndexError`, `ValueError`, `AssertionError`,
  `NameError`, failed `int()`/`float()` conversions) make a function
  return `none` / `Except.error`: the Python function raises and returns
  nothing.
* Files are lists of csv rows (`List (List String)`): the sources read
  every file through `csv.reader`, so a physical line is the list of its
  comma-separated fields and a blank line is `[]`.
-/

namespace PyHelp

/-! ## Python string primitives -/

/-- Character-level prefix test (used to model Python's substring test). -/
def prefMatch : List Char → List Char → Bool
  | [], _ => true
  | _ :: _, [] => false
  | a :: as, b :: bs => a = b && prefMatch as bs

/-- `subMatch pat hay` is true when `pat` occurs contiguously in `hay`. -/
def subMatch : List Char → List Char → Bool
  | pat, [] => prefMatch pat []
  | pat, c :: t => prefMatch pat (c :: t) || subMatch pat t

/-- Python's substring containment `pat in hay`. -/
def strContains (hay pat : String) : Bool :=
  subMatch pat.toList hay.toList

/-- Python whitespace (the characters `str.split()` splits on in these files). -/
def isPyWs (c : Char) : Bool :=
  c = ' ' || c = '\t' || c = '\n' || c = '\r'

/-- One step of `pySplitAux`: accumulate the current word. -/
def pySplitAux : List Char → List Char → List (List Char)
  | [], acc => if acc = [] then [] else [acc.reverse]
  | c :: cs, acc =>
    if isPyWs c then
      if acc = [] then pySplitAux cs [] else acc.reverse :: pySplitAux cs []
    else
      pySplitAux cs (c :: acc)

/-- Python's `str.split()`: split on whitespace runs, dropping empty words. -/
def pySplit (s : String) : List String :=
  (pySplitAux s.toList []).map (fun cs => String.mk cs)

/-- Python's `lst[-n:]`: the last `n` elements (the whole list when shorter). -/
def takeLast (n : ℕ) (l : List α) : List α :=
  l.drop (l.length - n)

/-- Value of a nonempty digit string. -/
def digitsToNat (cs : List Char) : ℕ :=
  cs.foldl (fun n c => 10 * n + (c.toNat - 48)) 0

/-- Python's `int(s)`: strip whitespace, optional sign, nonempty digits.
(Underscore separators, never present in HELP reports, are not modelled.) -/
def parsePyInt (s : String) : Option ℤ :=
  let cs := (s.toList.dropWhile isPyWs).reverse.dropWhile isPyWs |>.reverse
  let (sign, digits) : ℤ × List Char :=
    match cs with
    | '-' :: rest => (-1, rest)
    | '+' :: rest => (1, rest)
    | rest => (1, rest)
  if digits ≠ [] ∧ digits.all Char.isDigit then
    some (sign * (digitsToNat digits : ℤ))
  else
    none

/-- Python's `float(s)` restricted to the fixed-point forms that occur in
HELP reports: optional sign, integer digits, optional `.` and fraction
digits, at least one digit overall.  (Exponent, `inf` and `nan` forms are
not modelled; on report data they never occur.)  The value
`±(i + f/10^k)` is built as one `Rat.divInt` so the kernel can evaluate
parses inside witnesses. -/
def parsePyFloat (s : String) : Option ℚ :=
  let cs := (s.toList.dropWhile isPyWs).reverse.dropWhile isPyWs |>.reverse
  let (neg, body) : Bool × List Char :=
    match cs with
    | '-' :: rest => (true, rest)
    | '+' :: rest => (false, rest)
    | rest => (false, rest)
  let intPart := body.takeWhile Char.isDigit
  let rest := body.dropWhile Char.isDigit
  let mk : ℕ → ℕ → Option ℚ := fun num den =>
    some (Rat.divInt (if neg then -(num : ℤ) else (num : ℤ)) (den : ℤ))
  match rest with
  | [] =>
    if intPart ≠ [] then mk (digitsToNat intPart) 1 else none
  | '.' :: frac =>
    if (intPart ≠ [] ∨ frac ≠ []) ∧ frac.all Char.isDigit then
      mk (digitsToNat intPart * 10 ^ frac.length + digitsToNat frac)
        (10 ^ frac.length)
    else none
  | _ => none

/-- Clamp a Python slice index into `[0, len]`, counting from the end when
negative. -/
def pySliceIdx (len : ℕ) (i : ℤ) : ℕ :=
  let j := if i < 0 then i + len else i
  (max 0 (min j len)).toNat

/-- Python's `s[a:b]` string slice. -/
def pySlice (s : String) (a b : ℤ) : String :=
  let cs := s.toList
  let ia := pySliceIdx cs.length a
  let ib := pySliceIdx cs.length b
  String.mk ((cs.drop ia).take (ib - ia))

/-- Python's `s[a:]` string slice to the end. -/
def pySliceFrom (s : String) (a : ℤ) : String :=
  pySlice s a (s.toList.length : ℤ)

/-- Fallible `map` over `Option` (models a numpy `astype` conversion of a
token list, which raises when any token fails to convert). -/
def omap (f : α → Option β) : List α → Option (List β)
  | [] => some []
  | a :: as =>
    match f a, omap f as with
    | some b, some bs => some (b :: bs)
    | _, _ => none

/-! ## numpy primitives used by the sources -/

/-- `np.unique`: sorted list of the distinct elements. -/
def npUnique [LinearOrder α] (l : List α) : List α :=
  (l.insertionSort (· ≤ ·)).dedup

/-- `np.where(years == y)[0]`: ascending positions where the value is `y`. -/
def npWhereEq [DecidableEq α] : List α → α → List ℕ
  | [], _ => []
  | a :: as, y =>
    if a = y then 0 :: (npWhereEq as y).map (· + 1)
    else (npWhereEq as y).map (· + 1)

/-- `np.digitize(x, bins, right=True)` for ascending `bins`: the number of
bins strictly below `x` (i.e. `searchsorted` on the left). -/
def digitizeRight (bins : List ℚ) (x : ℚ) : ℕ :=
  bins.countP (fun b => decide (b < x))

/-- Fancy-index read `data[idxs]` (raises, i.e. `none`, when out of range). -/
def npSelect (data : List ℚ) (idxs : List ℕ) : Option (List ℚ) :=
  omap (fun i => data.get? i) idxs

/-- Split a list into consecutive chunks of size `c` (for `c > 0`; the last
chunk is shorter when the length is not a multiple of `c`). -/
def chunkList (c : ℕ) : List α → List (List α)
  | [] => []
  | x :: xs => (x :: xs.take (c - 1)) :: chunkList c (xs.drop (c - 1))
  termination_by l => l.length
  decreasing_by
    simp only [List.length_drop, List.length_cons]
    omega

/-- Exact reshape of a flat list into `r` rows of `c` (raises otherwise). -/
def npReshape (r c : ℕ) (l : List α) : Option (List (List α)) :=
  if l.length = r * c then some (chunkList c l) else none

/-! ## CWEEDS datasets (`weather_reader.read_cweeds_file` and the join)

A CWEEDS dataset in the source is a dict of five parallel arrays
(`Years`, `Months`, `Days`, `Hours`, `Irradiance`) plus the `Time` array
and scalar metadata.  The five parallel arrays are embedded as a list of
`CRow` records parallel to `time`; every operation of the source applies
the same index computation to all five arrays at once, so the row form is
index-for-index the same data. -/

/-- One index position of the five parallel data arrays. -/
structure CRow where
  year : ℤ
  month : ℤ
  day : ℤ
  hour : ℤ
  irr : ℚ
deriving DecidableEq, Repr

/-- The nine scalar header fields read from a WY3 header row. -/
structure CweedsHeader where
  horzVersion : String
  location : String
  province : String
  country : String
  stationId : String
  latitude : ℚ
  longitude : ℚ
  timeZone : ℚ
  elevation : ℚ
deriving DecidableEq, Repr

/-- A CWEEDS dataset: `'Time Format'`, `'CWEEDS Format'`, the optional
header metadata (absent for WY2 files, which carry no header row), the
`Time` array and the five data arrays as rows. -/
structure CweedsDataset where
  timeFormat : String
  cweedsFormat : String
  header : Option CweedsHeader
  time : List ℚ
  rows : List CRow
deriving DecidableEq, Repr

/-- Parse the WY3 header row (`header_list[0..8]`, floats at 5..8);
a short row or an unconvertible float raises. -/
def parseCweedsHeader (row : List String) : Option CweedsHeader := do
  let a0 ← row.get? 0
  let a1 ← row.get? 1
  let a2 ← row.get? 2
  let a3 ← row.get? 3
  let a4 ← row.get? 4
  let lat ← (← row.get? 5) |> parsePyFloat
  let lon ← (← row.get? 6) |> parsePyFloat
  let tz ← (← row.get? 7) |> parsePyFloat
  let elev ← (← row.get? 8) |> parsePyFloat
  pure ⟨a0, a1, a2, a3, a4, lat, lon, tz, elev⟩

/-- Parse one CWEEDS data line at character offset `off` (0 for WY2, 2 for
WY3): year/month/day/hour slices, the irradiance slice divided by 1000
(kJ/m² to MJ/m²), and the Excel-format time coordinate `timeOf y m d h`.
`timeOf` stands for `xlrd.xldate.xldate_from_datetime_tuple`, an external
collaborator of the repository, and is passed in as a parameter. -/
def parseCweedsLine (off : ℤ) (timeOf : ℤ → ℤ → ℤ → ℤ → ℚ)
    (row : List String) : Option (ℚ × CRow) := do
  let s ← row.head?
  let y ← parsePyInt (pySlice s (off + 6) (off + 10))
  let m ← parsePyInt (pySlice s (off + 10) (off + 12))
  let d ← parsePyInt (pySlice s (off + 12) (off + 14))
  let hRaw ← parsePyInt (pySlice s (off + 14) (off + 16))
  let irrRaw ← parsePyFloat (pySlice s (off + 20) (off + 24))
  pure (timeOf y m d (hRaw - 1),
    ⟨y, m, d, hRaw - 1, Rat.divInt irrRaw.num (irrRaw.den * 1000)⟩)

/-- The hourly stage of `read_cweeds_file`: extension dispatch, WY3 header
pop, and per-line field extraction.  `ext` is the file extension with the
dot already removed, `lines` is the `csv.reader` content of the file. -/
def readCweedsHourly (ext : String) (lines : List (List String))
    (timeOf : ℤ → ℤ → ℤ → ℤ → ℚ) :
    Option (Option CweedsHeader × List (ℚ × CRow)) :=
  if ext = "WY2" then
    (omap (parseCweedsLine 0 timeOf) lines).map (fun rs => (none, rs))
  else if ext = "WY3" then
    match lines with
    | [] => none
    | hrow :: rest => do
      let h ← parseCweedsHeader hrow
      let rs ← omap (parseCweedsLine 2 timeOf) rest
      pure (some h, rs)
  else none

/-- Sum of the irradiance values of a block of hourly entries. -/
def blockIrrSum (b : List (ℚ × CRow)) : ℚ :=
  (b.map (fun p => p.2.irr)).sum

/-- `weather_reader.read_cweeds_file`.  With `format_to_daily` the hourly
rows must number a multiple of 24 (`assert`), and each 24-row block is
collapsed to one daily entry: irradiance summed, calendar fields and time
from the block's first row, hour zeroed. -/
def read_cweeds_file (ext : String) (lines : List (List String))
    (timeOf : ℤ → ℤ → ℤ → ℤ → ℚ) (format_to_daily : Bool) :
    Option CweedsDataset := do
  let (hdr, hrows) ← readCweedsHourly ext lines timeOf
  if format_to_daily then
    if hrows.length % 24 = 0 then
      let blocks := chunkList 24 hrows
      let daily ← omap (fun (b : List (ℚ × CRow)) =>
        b.head?.map (fun p => (p.1, CRow.mk p.2.year p.2.month p.2.day 0
          (blockIrrSum b)))) blocks
      pure ⟨"daily", ext, hdr, daily.map (·.1), daily.map (·.2)⟩
    else
      none
  else
    pure ⟨"hourly", ext, hdr, hrows.map (·.1), hrows.map (·.2)⟩

/-- Scatter assignment `merged[key][indexes] = dataset[key]` with
`indexes = np.digitize(dataset['Time'], times, right=True)`, applied to
all five data arrays at once (the source computes `indexes` once and uses
it for each of the five keys). -/
def scatterRows (times : List ℚ) (srcT : List ℚ) (srcR : List CRow)
    (acc : List CRow) : List CRow :=
  (srcT.zip srcR).foldl (fun a p => a.set (digitizeRight times p.1) p.2) acc

/-- `weather_reader.join_daily_cweeds_wy2_and_wy3`.  The three `assert`
statements become the guard; the merged time axis is the sorted,
deduplicated union (`np.unique` of the `hstack`; the following `np.sort`
is a no-op on `np.unique` output); the WY2 rows are scattered first and
the WY3 rows second; the nine header fields are copied from the WY3 input
(a missing header, impossible for a dataset read from a WY3 file, would
raise a `KeyError`).  `np.empty` output arrays are modelled as zero-filled;
every slot is overwritten because each merged time comes from one of the
two sources. -/
def join_daily_cweeds_wy2_and_wy3 (wy2 wy3 : CweedsDataset) :
    Option CweedsDataset :=
  if wy2.cweedsFormat = "WY2" ∧ wy3.cweedsFormat = "WY3" ∧
      wy2.timeFormat = wy3.timeFormat then
    match wy3.header with
    | none => none
    | some h =>
      let times := npUnique (wy2.time ++ wy3.time)
      let init : List CRow := List.replicate times.length ⟨0, 0, 0, 0, 0⟩
      let merged := scatterRows times wy3.time wy3.rows
        (scatterRows times wy2.time wy2.rows init)
      some ⟨wy3.timeFormat, "WY2+WY3", some h, times, merged⟩
  else none

/-! ## HELP fixed-width input writer (`save_data_to_HELP_format`,
`format_timeseries_for_HELP`)

A written numeric field `'{0:>w.df}'.format(x)` carries exactly the value
of `x` rounded to `d` decimal places (right-aligned in `w` characters),
and the year field carries the integer exactly; the information content of
a written line is therefore embedded as the pair of the year and the ten
rounded values.  Python renders ties on the decimal expansion of the
binary float half-to-even; rounding is modelled with Mathlib's
nearest-integer `round` (ties half-up) — both are nearest roundings, and
the `1/(2·10^d)` distance bound below holds for either. -/

/-- `calendar.isleap` (Python `%` on ints is floor mod, as is `Int.emod`). -/
def pyIsLeap (y : ℤ) : Bool :=
  y % 4 == 0 && (y % 100 != 0 || y % 400 == 0)

/-- `366 if calendar.isleap(year) else 365`. -/
def daysInYear (y : ℤ) : ℕ :=
  if pyIsLeap y then 366 else 365

/-- The value carried by a `d`-decimal fixed-point field. -/
def roundTo (d : ℕ) (x : ℚ) : ℚ :=
  ((round (x * 10 ^ d) : ℤ) : ℚ) / 10 ^ d

/-- The ways the writer raises: bad extension or missing latitude
(`ValueError`), a year whose day count is wrong (`AssertionError`), a
fancy-index or reshape failure (numpy errors, unreachable under the
assert). -/
inductive HelpWriteError
  | invalidExt (ext : String)
  | missingLat
  | incompleteYear (y : ℤ)
  | numpyErr
deriving DecidableEq, Repr

/-- Lift a fallible numpy step into the writer's error monad. -/
def toExcept (e : ε) : Option α → Except ε α
  | none => .error e
  | some a => .ok a

/-- The per-year body of the writer loop: select the year's values
(`np.where` / fancy indexing), assert the day count, pad with
`np.zeros(10 - len % 10)`, reshape to 37×10, and emit one line per row of
the year together with the ten `d`-decimal field values. -/
def formatYearBlock (years : List ℤ) (data : List ℚ) (d : ℕ) (year : ℤ) :
    Except HelpWriteError (List (ℤ × List ℚ)) :=
  if (npWhereEq years year).length = daysInYear year then do
    let vals ← toExcept .numpyErr (npSelect data (npWhereEq years year))
    let rows ← toExcept .numpyErr
      (npReshape 37 10 (vals ++ List.replicate (10 - vals.length % 10) 0))
    .ok (rows.map (fun r => (year, r.map (roundTo d))))
  else .error (.incompleteYear year)

/-- `weather_reader.format_timeseries_for_HELP`: the loop over
`np.unique(years)`.  `d` is the decimal count of the `data_format`
argument (`'{0:>5.1f}'` ↦ 1, `'{0:>6.1f}'` ↦ 1, `'{0:>6.2f}'` ↦ 2). -/
def format_timeseries_for_HELP (years : List ℤ) (data : List ℚ) (d : ℕ) :
    Except HelpWriteError (List (ℤ × List ℚ)) :=
  (npUnique years).foldlM
    (fun acc y => (formatYearBlock years data d y).map (acc ++ ·)) []

/-- The formatted content of a HELP input file: the three header lines
(`itype`, `iunits`, the 40-character-truncated city), the optional
latitude line, and the data lines. -/
structure HelpFile where
  itype : ℤ
  iunits : ℤ
  city40 : String
  lat : Option ℚ
  rows : List (ℤ × List ℚ)
deriving DecidableEq, Repr

/-- `weather_reader.save_data_to_HELP_format`: extension dispatch (D4
precipitation d=1, D7 air temperature d=1, D13 solar radiation d=2 with a
required latitude), header assembly, and the same per-year data loop as
`format_timeseries_for_HELP` (the source repeats the loop verbatim).
`ext` is the file extension with the dot removed, as after `ext[1:]`. -/
def save_data_to_HELP_format (ext : String) (years : List ℤ)
    (data : List ℚ) (city : String) (lat : Option ℚ) :
    Except HelpWriteError HelpFile := do
  let d ←
    if ext = "D4" then Except.ok 1
    else if ext = "D7" then Except.ok 1
    else if ext = "D13" then
      match lat with
      | none => Except.error .missingLat
      | some _ => Except.ok 2
    else Except.error (.invalidExt ext)
  let rows ← format_timeseries_for_HELP years data d
  Except.ok ⟨3, 2, String.mk (city.toList.take 40),
    (if ext = "D13" then lat.map (roundTo 2) else none), rows⟩

/-- `save_data_to_HELP_format` followed by `save_content_to_csv`: the file
write is the last statement of the source function, so on any raised error
no file (not even a partial one) is created. -/
def save_data_to_HELP_file (fs : List (String × HelpFile)) (path ext : String)
    (years : List ℤ) (data : List ℚ) (city : String) (lat : Option ℚ) :
    Except HelpWriteError (List (String × HelpFile)) :=
  match save_data_to_HELP_format ext years data city lat with
  | .error e => .error e
  | .ok f => .ok ((path, f) :: fs)

/-! ### Re-parsing the written data block (claim C2)

The re-parser follows the claim's words: each written line is a year field
plus ten fixed-width value fields; consecutive lines with the same year
field form one year's block, their eighty-odd values are concatenated and
the trailing zero padding (everything beyond the year's day count) is
dropped. -/

/-- Group consecutive lines carrying the same year, concatenating their
values. -/
def groupRuns : List (ℤ × List ℚ) → List (ℤ × List ℚ)
  | [] => []
  | (y, vs) :: rest =>
    let same := rest.takeWhile (fun r => r.1 = y)
    let others := rest.dropWhile (fun r => r.1 = y)
    (y, vs ++ (same.map (·.2)).flatten) :: groupRuns others
  termination_by l => l.length
  decreasing_by
    simp only [List.length_cons]
    have := (List.dropWhile_sublist
      (fun (r : ℤ × List ℚ) => decide (r.1 = y)) (l := rest)).length_le
    omega

/-- Re-parse a written data block: group the lines by their year field and
drop each year's trailing zero padding. -/
def parseHelpDataBlock (rows : List (ℤ × List ℚ)) : List (ℤ × List ℚ) :=
  (groupRuns rows).map (fun p => (p.1, p.2.take (daysInYear p.1)))

/-! ## Monthly HELP report parser (`processing.read_monthly_help_output`)

The source walks the csv rows with an index `i` and two nested `while`
loops; the embedding is one recursion over the remaining rows with a flag
saying whether the inner (year-block) loop is active.  The variables
`precip`, `runoff`, `evapo`, `rechg` are function-level locals that are
*not* reset when a new block starts (a block missing one of them reuses
the previous block's value, and the very first block missing one raises
`NameError`); `subrunoff` and `percol` are reset to `None` at each block
start.  Tokens are kept as strings until the block is closed, where
`np.array(...).astype('float32')` converts them (failure raises). -/

/-- The Python locals holding the last seen token pair of each variable. -/
structure MVars where
  precip : Option (List String)
  runoff : Option (List String)
  evapo : Option (List String)
  rechg : Option (List String)
  subrunoff : Option (List String)
  percol : Option (List String)
deriving DecidableEq, Repr

/-- The accumulated per-year lists (`arr_years` and the six `vstack_*`). -/
structure MAccs where
  years : List ℤ
  rain : List (List ℚ)
  runoff : List (List ℚ)
  evapo : List (List ℚ)
  subrunoff : List (List ℚ)
  percol : List (List ℚ)
  rechg : List (List ℚ)
deriving DecidableEq, Repr

/-- `line.split()[-6:] + nline.split()[-6:]`. -/
def pairToks (line nline : String) : List String :=
  takeLast 6 (pySplit line) ++ takeLast 6 (pySplit nline)

/-- The `elif` chain applied to one logical pair of physical lines. -/
def stepPair (v : MVars) (line nline : String) : MVars :=
  if strContains line "PRECIPITATION" then
    { v with precip := some (pairToks line nline) }
  else if strContains line "RUNOFF" then
    { v with runoff := some (pairToks line nline) }
  else if strContains line "EVAPOTRANSPIRATION" then
    { v with evapo := some (pairToks line nline) }
  else if strContains line "LATERAL DRAINAGE" ∧ v.subrunoff = none then
    { v with subrunoff := some (pairToks line nline) }
  else if strContains line "PERCOLATION" then
    { v with
      percol := if v.percol = none then some (pairToks line nline) else v.percol
      rechg := some (pairToks line nline) }
  else v

/-- The appends that run when a block's dashed rule is reached: convert
each variable's tokens (an unset `precip`/`runoff`/`evapo`/`rechg` is a
`NameError`, an unset `percol` fails the `astype` conversion of `None`;
an unset `subrunoff` becomes `np.zeros(12)`). -/
def closeBlock (v : MVars) (a : MAccs) : Option MAccs := do
  let pv ← omap parsePyFloat (← v.precip)
  let rv ← omap parsePyFloat (← v.runoff)
  let ev ← omap parsePyFloat (← v.evapo)
  let gv ← omap parsePyFloat (← v.rechg)
  let cv ← omap parsePyFloat (← v.percol)
  let sv ← match v.subrunoff with
    | none => some (List.replicate 12 (0 : ℚ))
    | some s => omap parsePyFloat s
  pure { a with
    rain := a.rain ++ [pv]
    runoff := a.runoff ++ [rv]
    evapo := a.evapo ++ [ev]
    rechg := a.rechg ++ [gv]
    percol := a.percol ++ [cv]
    subrunoff := a.subrunoff ++ [sv] }

/-- The two nested `while` loops of `read_monthly_help_output` as one
recursion; `inBlock` is true while the inner loop runs.  The outer loop
stops when fewer than two rows remain (`if i+1 >= len(csvread): break`:
the last row is never examined); the inner loop reads the current row
unconditionally (`IndexError`, i.e. `none`, past the end) and needs the
next row nonempty to process a pair. -/
def monthlyLoop : List (List String) → Bool → MVars → MAccs → Option MAccs
  | [], false, _, a => some a
  | [_], false, _, a => some a
  | row :: rest, false, v, a =>
    match row with
    | [] => monthlyLoop rest false v a
    | line :: _ =>
      if strContains line "MONTHLY TOTALS" then
        match (pySplit line).getLast? with
        | none => none
        | some tok =>
          match parsePyInt tok with
          | none => none
          | some yr =>
            monthlyLoop rest true { v with subrunoff := none, percol := none }
              { a with years := a.years ++ [yr] }
      else if strContains line "FINAL WATER STORAGE" then some a
      else monthlyLoop rest false v a
  | [], true, _, _ => none
  | row :: rest, true, v, a =>
    match row with
    | [] => monthlyLoop rest true v a
    | line :: _ =>
      if strContains line "**********" then
        match closeBlock v a with
        | none => none
        | some a' => monthlyLoop rest false v a'
      else
        match rest with
        | [] => none
        | nrow :: _ =>
          match nrow with
          | [] => monthlyLoop rest true v a
          | nline :: _ => monthlyLoop rest true (stepPair v line nline) a

/-- `np.vstack` of the accumulated rows: raises on an empty list or on
rows of unequal length, otherwise the 2-D array. -/
def vstack (rs : List (List ℚ)) : Option (List (List ℚ)) :=
  match rs with
  | [] => none
  | r :: rest =>
    if rest.all (fun x => x.length = r.length) then some (r :: rest) else none

/-- The monthly result table (`years` as `uint16`, data as 2-D arrays). -/
structure MonthlyData where
  years : List ℤ
  rain : List (List ℚ)
  runoff : List (List ℚ)
  evapo : List (List ℚ)
  subrunoff : List (List ℚ)
  percolation : List (List ℚ)
  recharge : List (List ℚ)
deriving DecidableEq, Repr

/-- `processing.read_monthly_help_output` on the csv rows of the file. -/
def read_monthly_help_output (csvread : List (List String)) :
    Option MonthlyData := do
  let a ← monthlyLoop csvread false ⟨none, none, none, none, none, none⟩
    ⟨[], [], [], [], [], [], []⟩
  let rain ← vstack a.rain
  let runoff ← vstack a.runoff
  let evapo ← vstack a.evapo
  let subr ← vstack a.subrunoff
  let perc ← vstack a.percol
  let rechg ← vstack a.rechg
  pure ⟨a.years.map (· % 65536), rain, runoff, evapo, subr, perc, rechg⟩

/-! ## Daily HELP report parser (`processing.read_daily_help_output`) -/

/-- One parsed fixed-column data row of a daily report. -/
structure DailyRow where
  day : ℤ
  rain : ℚ
  ru : ℚ
  et : ℚ
  ezone : ℚ
  headfirst : ℚ
  drainfirst : ℚ
  leakfirst : ℚ
  leaklast : ℚ
deriving DecidableEq, Repr

/-- The `try` block of the daily parser: the fixed column slices, parsed
in source order; any conversion failure means "not a data row". -/
def parseDailyRow (line : String) : Option DailyRow := do
  let day ← parsePyInt (pySlice line 2 5)
  let rain ← parsePyFloat (pySlice line 13 19)
  let ru ← parsePyFloat (pySlice line 19 26)
  let et ← parsePyFloat (pySlice line 26 33)
  let ezone ← parsePyFloat (pySlice line 33 41)
  let hf ← parsePyFloat (pySlice line 41 51)
  let df ← parsePyFloat (pySlice line 51 61)
  let lf ← parsePyFloat (pySlice line 61 71)
  let ll ← parsePyFloat (pySliceFrom line (-10))
  pure ⟨day, rain, ru, et, ezone, hf, df, lf, ll⟩

/-- The daily parser's loop state: the two header counts, the active year
context (year and its day count, cleared when the last day is reached),
and the accepted rows tagged with their year (the source appends to ten
parallel lists in lockstep inside one success branch, embedded as one
list of pairs). -/
structure DState where
  nlay : Option ℤ
  nsub : Option ℤ
  yearCtx : Option (ℤ × ℕ)
  rows : List (ℤ × DailyRow)
deriving DecidableEq, Repr

/-- One iteration of the daily parser's `for` loop. -/
def dailyStep (st : DState) (row : List String) : Option DState := do
  match row with
  | [] => pure st
  | line :: _ =>
    let st1 ←
      if strContains line "TOTAL NUMBER OF LAYERS" then
        match (pySplit line).getLast? >>= parsePyInt with
        | none => none
        | some n => some { st with nlay := some n }
      else if strContains line "TOTAL NUMBER OF SUBPROFILES" then
        match (pySplit line).getLast? >>= parsePyInt with
        | none => none
        | some n => some { st with nsub := some n }
      else pure st
    if strContains line "DAILY OUTPUT FOR YEAR" then
      match (pySplit line).getLast? >>= parsePyInt with
      | none => none
      | some yr => pure { st1 with yearCtx := some (yr, daysInYear yr) }
    else
      match st1.yearCtx with
      | none => pure st1
      | some (yr, diy) =>
        match parseDailyRow line with
        | none => pure st1
        | some r =>
          let st2 := { st1 with rows := st1.rows ++ [(yr, r)] }
          if r.day = (diy : ℤ) then pure { st2 with yearCtx := none }
          else pure st2

/-- The daily result table (`years` and `days` as `uint16`). -/
structure DailyData where
  years : List ℤ
  days : List ℤ
  rain : List ℚ
  runoff : List ℚ
  et : List ℚ
  ezone : List ℚ
  headfirst : List ℚ
  drainfirst : List ℚ
  leakfirst : List ℚ
  leaklast : List ℚ
deriving DecidableEq, Repr

/-- `processing.read_daily_help_output` on the csv rows of the file. -/
def read_daily_help_output (csvread : List (List String)) :
    Option DailyData := do
  let st ← csvread.foldlM dailyStep ⟨none, none, none, []⟩
  pure { years := st.rows.map (fun p => p.1 % 65536)
         days := st.rows.map (fun p => p.2.day % 65536)
         rain := st.rows.map (·.2.rain)
         runoff := st.rows.map (·.2.ru)
         et := st.rows.map (·.2.et)
         ezone := st.rows.map (·.2.ezone)
         headfirst := st.rows.map (·.2.headfirst)
         drainfirst := st.rows.map (·.2.drainfirst)
         leakfirst := st.rows.map (·.2.leakfirst)
         leaklast := st.rows.map (·.2.leaklast) }

/-! ## Batch runner (`processing.run_help_singlecell`, `run_help_allcells`)

The filesystem is an association list from path to csv file content.  The
HELP simulator (`HELP3O.run_simulation`, an external collaborator invoked
as an opaque subprocess) is a parameter transforming the filesystem; an
invocation count is threaded so the claims can speak about "zero simulator
invocations".  The worker pool (`Pool.imap_unordered`) and the progress
printing are console-side concurrency: each cell owns its own output path,
so the per-cell work units are independent and the batch is modelled as a
sequential fold in submission order; the observables of the claims (which
cells got results and how many simulator invocations happened) do not
depend on the completion order. -/

/-- The modelled filesystem. -/
abbrev FS := List (String × List (List String))

/-- `osp.exists` / `open` for the modelled filesystem. -/
def fsGet (fs : FS) (p : String) : Option (List (List String)) :=
  (fs.find? (fun e => e.1 == p)).map (·.2)

/-- `os.remove` for the modelled filesystem. -/
def fsRemove (fs : FS) (p : String) : FS :=
  fs.filter (fun e => !(e.1 == p))

/-- `processing.run_help_singlecell`: skip the simulator when the output
file (`outparam[5]`) already exists, parse it, delete it, return the
(cell name, parsed table) pair together with the filesystem and the
number of simulator invocations (0 or 1). -/
def run_help_singlecell (sim : List String → FS → FS) (fs : FS)
    (item : String × List String) :
    Option (FS × ℕ × (String × MonthlyData)) := do
  let path ← item.2.get? 5
  let fs1calls := if (fsGet fs path).isSome then (fs, 0) else (sim item.2 fs, 1)
  let content ← fsGet fs1calls.1 path
  let results ← read_monthly_help_output content
  pure (fsRemove fs1calls.1 path, fs1calls.2, (item.1, results))

/-- `processing.run_help_allcells`: run every cell, collecting the output
mapping (any cell failure aborts the whole batch, as an uncaught exception
does in the source).  Returns the final filesystem, the total number of
simulator invocations and the (cell name, result) pairs. -/
def run_help_allcells (sim : List String → FS → FS) (fs : FS)
    (cells : List (String × List String)) :
    Option (FS × ℕ × List (String × MonthlyData)) :=
  cells.foldlM
    (fun acc item => do
      let r ← run_help_singlecell sim acc.1 item
      pure (r.1, acc.2.1 + r.2.1, acc.2.2 ++ [r.2.2]))
    (fs, 0, [])

/-- The number of data rows of a CWEEDS file: the csv rows except, for
WY3, the header row that `reader.pop(0)` removes. -/
def cweedsDataRowCount (ext : String) (lines : List (List String)) : ℕ :=
  if ext = "WY3" then lines.length - 1 else lines.length

/-! ## Concrete instances used by counterexamples and witnesses -/

/-- A WY2 data line: filler, year 2001, month 01, day 02, hour `h2`,
filler, irradiance field 0500 (0.5 MJ/m² after the /1000 conversion). -/
def cwLineEx (h2 : String) : String :=
  "000000" ++ "2001" ++ "01" ++ "02" ++ h2 ++ "0000" ++ "0500"

/-- Two-digit rendering of the hours 1..24. -/
def twoDigit (n : ℕ) : String :=
  if n < 10 then "0" ++ toString n else toString n

/-- A WY2 file with exactly 24 hourly rows (one full day). -/
def cwLinesEx : List (List String) :=
  (List.range 24).map (fun i => [cwLineEx (twoDigit (i + 1))])

/-- A time-coordinate function for the witnesses (stands for the external
`xldate_from_datetime_tuple`). -/
def cwTimeEx : ℤ → ℤ → ℤ → ℤ → ℚ := fun _ _ _ h => (h : ℚ)

/-- The hourly rows that `readCweedsHourly` extracts from `cwLinesEx`. -/
def cwHRowsEx : List (ℚ × CRow) :=
  (List.range 24).map
    (fun i => (((i : ℤ) : ℚ), ⟨2001, 1, 2, (i : ℤ), Rat.divInt 1 2⟩))

/-- A WY2 daily dataset with a single entry at time 0, irradiance 1. -/
def cw2ex : CweedsDataset :=
  ⟨"daily", "WY2", none, [0], [⟨2000, 1, 1, 0, 1⟩]⟩

/-- Example header values. -/
def cwHdEx : CweedsHeader :=
  ⟨"HORZ", "MONTREAL", "QC", "CAN", "702", 45, -73, -5, 30⟩

/-- A WY3 daily dataset with a single entry at the same time 0 but
irradiance 2: the WY2 entry above collides with it. -/
def cw3ex : CweedsDataset :=
  ⟨"daily", "WY3", some cwHdEx, [0], [⟨2000, 1, 1, 1, 2⟩]⟩

/-- Disjoint-time variants used by the witnesses. -/
def cw2ex' : CweedsDataset :=
  ⟨"daily", "WY2", none, [0, 2], [⟨2000, 1, 1, 0, 1⟩, ⟨2000, 1, 3, 0, 3⟩]⟩

/-- WY3 witness dataset sharing time 2 with `cw2ex'`. -/
def cw3ex' : CweedsDataset :=
  ⟨"daily", "WY3", some cwHdEx, [1, 2], [⟨2000, 1, 2, 0, 5⟩, ⟨2000, 1, 3, 0, 7⟩]⟩

/-- The data values whose position carries year `y`, in position order
(the reference description of what `data[np.where(years == y)[0]]`
selects). -/
def yearValues (years : List ℤ) (data : List ℚ) (y : ℤ) : List ℚ :=
  (years.zip data).filterMap (fun p => if p.1 = y then some p.2 else none)

/-- 365 copies of the non-leap year 2001 (witness data). -/
def c2Years : List ℤ := List.replicate 365 2001

/-- 365 zero values (witness data). -/
def c2Data : List ℚ := List.replicate 365 0

/-- The physical rows of a sequence of logical line pairs: each pair
contributes two one-field csv rows. -/
def pairRows (pairs : List (String × String)) : List (List String) :=
  pairs.flatMap (fun p => [[p.1], [p.2]])

/-- A line triggering none of the monthly parser's variable keywords. -/
def noMonthlyKw (s : String) : Prop :=
  strContains s "PRECIPITATION" = false ∧ strContains s "RUNOFF" = false ∧
  strContains s "EVAPOTRANSPIRATION" = false ∧
  strContains s "LATERAL DRAINAGE" = false ∧
  strContains s "PERCOLATION" = false

/-- A logical pair whose first line carries exactly the PERCOLATION
keyword (as the elif chain tests it) and whose second line is a plain
continuation line. -/
def isPercPair (p : String × String) : Prop :=
  strContains p.1 "**********" = false ∧
  strContains p.1 "PRECIPITATION" = false ∧
  strContains p.1 "RUNOFF" = false ∧
  strContains p.1 "EVAPOTRANSPIRATION" = false ∧
  strContains p.1 "LATERAL DRAINAGE" = false ∧
  strContains p.1 "PERCOLATION" = true ∧
  strContains p.2 "**********" = false ∧ noMonthlyKw p.2

/-- A logical pair whose first line carries exactly the LATERAL DRAINAGE
keyword and whose second line is a plain continuation line. -/
def isLatPair (p : String × String) : Prop :=
  strContains p.1 "**********" = false ∧
  strContains p.1 "PRECIPITATION" = false ∧
  strContains p.1 "RUNOFF" = false ∧
  strContains p.1 "EVAPOTRANSPIRATION" = false ∧
  strContains p.1 "LATERAL DRAINAGE" = true ∧
  strContains p.1 "PERCOLATION" = false ∧
  strContains p.2 "**********" = false ∧ noMonthlyKw p.2

instance (s : String) : Decidable (noMonthlyKw s) := by
  unfold noMonthlyKw
  infer_instance

instance (p : String × String) : Decidable (isPercPair p) := by
  unfold isPercPair
  infer_instance

instance (p : String × String) : Decidable (isLatPair p) := by
  unfold isLatPair
  infer_instance

/-- A well-formed monthly report file with one year block; the second
PERCOLATION pair (the 4s) wins for recharge, the first (the 3s) feeds
percolation. -/
def mFileEx : List (List String) := [
  ["MONTHLY TOTALS  FOR YEAR 2001"],
  ["  PRECIPITATION  1 2 3 4 5 6"], ["   7 8 9 10 11 12"],
  ["  RUNOFF  1 1 1 1 1 1"], ["   1 1 1 1 1 1"],
  ["  EVAPOTRANSPIRATION  2 2 2 2 2 2"], ["   2 2 2 2 2 2"],
  ["  LATERAL DRAINAGE FROM LAYER  3    5 5 5 5 5 5"], ["   5 5 5 5 5 5"],
  ["  PERCOLATION FROM LAYER  4    3 3 3 3 3 3"], ["   3 3 3 3 3 3"],
  ["  PERCOLATION FROM LAYER  9    4 4 4 4 4 4"], ["   4 4 4 4 4 4"],
  ["**********"], ["x"]]

/-- The parse result of `mFileEx`. -/
def mDataEx : MonthlyData :=
  ⟨[2001], [[1, 2, 3, 4, 5, 6, 7, 8, 9, 10, 11, 12]], [List.replicate 12 1],
   [List.replicate 12 2], [List.replicate 12 5], [List.replicate 12 3],
   [List.replicate 12 4]⟩

/-- A filesystem holding the pre-existing output files of two cells. -/
def fsEx : FS := [("out1", mFileEx), ("out2", mFileEx)]

/-- Two cells whose parameter tuples point at the two output files. -/
def cellsEx : List (String × List String) :=
  [("c1", ["a", "b", "c", "d", "e", "out1"]),
   ("c2", ["a", "b", "c", "d", "e", "out2"])]

/-- Two PERCOLATION pairs for the C4 witness (3s first, 4s last). -/
def c4percPairs : List (String × String) :=
  [("  PERCOLATION X  3 3 3 3 3 3", " 3 3 3 3 3 3"),
   ("  PERCOLATION Y  4 4 4 4 4 4", " 4 4 4 4 4 4")]

/-- The three base pairs shared by the C4 and C5 witnesses. -/
def c45basePairs : List (String × String) :=
  [("  PRECIPITATION  1 2 3 4 5 6", " 7 8 9 10 11 12"),
   ("  RUNOFF  1 1 1 1 1 1", " 1 1 1 1 1 1"),
   ("  EVAPOTRANSPIRATION  2 2 2 2 2 2", " 2 2 2 2 2 2")]

/-- Two LATERAL DRAINAGE pairs for the C5 witness (5s first, 6s later —
only the 5s should land in `sub-runoff`). -/
def c5latPairs : List (String × String) :=
  [("  LATERAL DRAINAGE A  5 5 5 5 5 5", " 5 5 5 5 5 5"),
   ("  LATERAL DRAINAGE B  6 6 6 6 6 6", " 6 6 6 6 6 6")]

/-- A line holding none of the daily parser's three section markers
(`TOTAL NUMBER OF LAYERS`, `TOTAL NUMBER OF SUBPROFILES`,
`DAILY OUTPUT FOR YEAR`). -/
def noDailyMarker (s : String) : Prop :=
  strContains s "TOTAL NUMBER OF LAYERS" = false ∧
  strContains s "TOTAL NUMBER OF SUBPROFILES" = false ∧
  strContains s "DAILY OUTPUT FOR YEAR" = false

instance (s : String) : Decidable ( noDailyMarker s) := by
  unfold noDailyMarker
  infer_instance

/-- Decimal digit character. -/
def decDigit (d : ℕ) : Char := "0123456789".toList.getD d ' '

/-- A day number rendered right-aligned in 3 columns (days 1..366). -/
def dayField (n : ℕ) : String :=
  if n < 10 then String.mk [' ', ' ', decDigit n]
  else if n < 100 then String.mk [' ', decDigit (n / 10), decDigit (n % 10)]
  else String.mk [decDigit (n / 100), decDigit (n / 10 % 10), decDigit (n % 10)]

/-- A fixed-column daily data row for day `n`: 81 characters in the column
layout of a HELP daily report line. -/
def c6row (n : ℕ) : String :=
  "  " ++ dayField n ++ "        " ++ "   0.1" ++ "    0.2" ++ "    0.3" ++
    "     1.0" ++ "       2.0" ++ "       3.0" ++ "       4.0" ++ "       0.5"

/-- The 365 data lines of the C6 witness file, days 1..365. -/
def c6lines : List String := (List.range 365).map (fun i => c6row (i + 1))

/-- The rows the lines of `c6lines` parse to. -/
def c6rows : List DailyRow :=
  (List.range 365).map (fun i =>
    ⟨(i : ℤ) + 1, Rat.divInt 1 10, Rat.divInt 2 10, Rat.divInt 3 10,
      1, 2, 3, 4, Rat.divInt 5 10⟩)

/-- The year marker line of the daily witness files. -/
def dMarkerEx : String := "           DAILY OUTPUT FOR YEAR 2001"

/-- A trailing unrelated section for the C6 witness: a section header, a
blank line, and a line that would parse as a valid data row (the parser
must reject it, the year context being cleared). -/
def c6trailing : List (List String) :=
  [["FINAL WATER STORAGE AT END OF YEAR"], [], [c6row 10]]

/-- A three-line daily report: a year marker and two data rows. -/
def dFileEx : List (List String) := [[dMarkerEx], [c6row 1], [c6row 2]]

/-- The parse result of `dFileEx`. -/
def dDataEx : DailyData :=
  ⟨[2001, 2001], [1, 2],
   [Rat.divInt 1 10, Rat.divInt 1 10], [Rat.divInt 2 10, Rat.divInt 2 10],
   [Rat.divInt 3 10, Rat.divInt 3 10], [1, 1], [2, 2], [3, 3], [4, 4],
   [Rat.divInt 5 10, Rat.divInt 5 10]⟩

/-- The six data arrays of a monthly table have the same number of rows as
`years` has entries. -/
def mEqLen (a : MAccs) : Prop :=
  a.rain.length = a.years.length ∧ a.runoff.length = a.years.length ∧
  a.evapo.length = a.years.length ∧ a.subrunoff.length = a.years.length ∧
  a.percol.length = a.years.length ∧ a.rechg.length = a.years.length

/-- The length invariant of the monthly loop: outside a block the seven
accumulators are aligned; inside a block the year was already appended
and the six data accumulators are one behind. -/
def mLenInv : Bool → MAccs → Prop
  | false, a => mEqLen a
  | true, a =>
    a.rain.length + 1 = a.years.length ∧
    a.runoff.length + 1 = a.years.length ∧
    a.evapo.length + 1 = a.years.length ∧
    a.subrunoff.length + 1 = a.years.length ∧
    a.percol.length + 1 = a.years.length ∧
    a.rechg.length + 1 = a.years.length

/-! # Theorems -/

/-! ## Sorted-union (`np.unique`) lemmas -/

theorem npUnique_sorted_le [LinearOrder α] (l : List α) :
    List.Sorted (· ≤ ·) (npUnique l) :=
  (List.sorted_insertionSort _ l).sublist (List.dedup_sublist _)

theorem npUnique_nodup [LinearOrder α] (l : List α) : (npUnique l).Nodup :=
  List.nodup_dedup _

theorem npUnique_sorted [LinearOrder α] (l : List α) :
    List.Sorted (· < ·) (npUnique l) :=
  (npUnique_sorted_le l).lt_of_le (npUnique_nodup l)

theorem npUnique_mem [LinearOrder α] (l : List α) (a : α) :
    a ∈ npUnique l ↔ a ∈ l := by
  rw [npUnique, List.mem_dedup]
  exact (List.perm_insertionSort _ l).mem_iff

/-! ## `np.digitize(·, bins, right=True)` lemmas -/

theorem digitizeRight_getElem (bins : List ℚ)
    (hs : List.Sorted (· < ·) bins) (j : ℕ) (hj : j < bins.length) :
    digitizeRight bins bins[j] = j := by
  induction bins generalizing j with
  | nil => simp at hj
  | cons b bs ih =>
    rw [List.sorted_cons] at hs
    cases j with
    | zero =>
      simp only [digitizeRight, List.getElem_cons_zero, List.countP_cons]
      have h1 : bs.countP (fun e => decide (e < b)) = 0 := by
        rw [List.countP_eq_zero]
        intro e he
        simp only [decide_eq_true_eq]
        exact not_lt.2 (hs.1 e he).le
      simp [h1]
    | succ j =>
      simp only [List.length_cons, Nat.succ_lt_succ_iff] at hj
      simp only [digitizeRight, List.getElem_cons_succ, List.countP_cons]
      have h1 : (decide (b < bs[j])) = true := by
        simp only [decide_eq_true_eq]
        exact hs.1 _ (List.getElem_mem hj)
      have h2 := ih hs.2 j hj
      simp only [digitizeRight] at h2
      rw [h2, h1]
      simp

theorem digitizeRight_mem (bins : List ℚ)
    (hs : List.Sorted (· < ·) bins) (t : ℚ) (ht : t ∈ bins) :
    digitizeRight bins t < bins.length ∧
      bins[digitizeRight bins t]? = some t := by
  obtain ⟨n, hn⟩ := List.get_of_mem ht
  have hlt : n.1 < bins.length := n.2
  have : bins[n.1] = t := by simpa using hn
  subst this
  rw [digitizeRight_getElem bins hs n.1 hlt]
  exact ⟨hlt, List.getElem?_eq_getElem hlt⟩

theorem digitizeRight_inj (bins : List ℚ) (hs : List.Sorted (· < ·) bins)
    (t t' : ℚ) (ht : t ∈ bins) (ht' : t' ∈ bins)
    (h : digitizeRight bins t = digitizeRight bins t') : t = t' := by
  have h1 := (digitizeRight_mem bins hs t ht).2
  have h2 := (digitizeRight_mem bins hs t' ht').2
  rw [h] at h1
  rw [h1] at h2
  exact Option.some_injective _ h2

/-! ## Scatter (`merged[indexes] = src`) lemmas -/

theorem scatterRows_nilT (times : List ℚ) (srcR : List CRow)
    (acc : List CRow) : scatterRows times [] srcR acc = acc := by
  simp [scatterRows]

theorem scatterRows_nilR (times : List ℚ) (srcT : List ℚ)
    (acc : List CRow) : scatterRows times srcT [] acc = acc := by
  simp [scatterRows]

theorem scatterRows_cons (times : List ℚ) (t0 : ℚ) (ts : List ℚ)
    (r0 : CRow) (rs : List CRow) (acc : List CRow) :
    scatterRows times (t0 :: ts) (r0 :: rs) acc =
      scatterRows times ts rs (acc.set (digitizeRight times t0) r0) := by
  simp [scatterRows, List.zip_cons_cons]

theorem scatterRows_length (times : List ℚ) (srcT : List ℚ)
    (srcR : List CRow) (acc : List CRow) :
    (scatterRows times srcT srcR acc).length = acc.length := by
  induction srcT generalizing srcR acc with
  | nil => rw [scatterRows_nilT]
  | cons t0 ts ih =>
    cases srcR with
    | nil => rw [scatterRows_nilR]
    | cons r0 rs => rw [scatterRows_cons, ih, List.length_set]

theorem scatterRows_untouched (times : List ℚ) (srcT : List ℚ)
    (srcR : List CRow) (acc : List CRow) (j : ℕ)
    (h : ∀ t ∈ srcT, digitizeRight times t ≠ j) :
    (scatterRows times srcT srcR acc)[j]? = acc[j]? := by
  induction srcT generalizing srcR acc with
  | nil => rw [scatterRows_nilT]
  | cons t0 ts ih =>
    cases srcR with
    | nil => rw [scatterRows_nilR]
    | cons r0 rs =>
      rw [scatterRows_cons,
        ih rs _ (fun u hu => h u (List.mem_cons_of_mem t0 hu))]
      exact List.getElem?_set_ne (h t0 (List.mem_cons_self t0 ts))

theorem scatterRows_hit (times : List ℚ) (hs : List.Sorted (· < ·) times)
    (srcT : List ℚ) (srcR : List CRow) (acc : List CRow)
    (hacc : acc.length = times.length) (hnd : srcT.Nodup)
    (hmem : ∀ t ∈ srcT, t ∈ times)
    (i : ℕ) (t : ℚ) (r : CRow)
    (hti : srcT[i]? = some t) (hri : srcR[i]? = some r) :
    (scatterRows times srcT srcR acc)[digitizeRight times t]? = some r := by
  induction srcT generalizing srcR acc i with
  | nil => simp at hti
  | cons t0 ts ih =>
    cases srcR with
    | nil => simp at hri
    | cons r0 rs =>
      rw [List.nodup_cons] at hnd
      cases i with
      | zero =>
        rw [List.getElem?_cons_zero, Option.some_inj] at hti hri
        rw [scatterRows_cons, hti, hri]
        have hmem0 : t ∈ times := hti ▸ hmem t0 (List.mem_cons_self t0 ts)
        have huntouched : ∀ u ∈ ts, digitizeRight times u ≠ digitizeRight times t := by
          intro u hu hcontra
          have : u = t := digitizeRight_inj times hs u t
            (hmem u (List.mem_cons_of_mem t0 hu)) hmem0 hcontra
          exact hnd.1 (by rw [hti, ← this]; exact hu)
        rw [scatterRows_untouched times ts rs _ _ huntouched]
        have hlt : digitizeRight times t < acc.length := by
          rw [hacc]
          exact (digitizeRight_mem times hs t hmem0).1
        exact List.getElem?_set_eq_of_lt r hlt
      | succ i =>
        rw [List.getElem?_cons_succ] at hti hri
        rw [scatterRows_cons]
        exact ih rs (acc.set (digitizeRight times t0) r0)
          (by rw [List.length_set]; exact hacc) hnd.2
          (fun u hu => hmem u (List.mem_cons_of_mem t0 hu)) i hti hri

/-! ## The join itself -/

theorem join_eq_some (wy2 wy3 : CweedsDataset) (h : CweedsHeader)
    (h2f : wy2.cweedsFormat = "WY2") (h3f : wy3.cweedsFormat = "WY3")
    (htf : wy2.timeFormat = wy3.timeFormat) (hh : wy3.header = some h) :
    join_daily_cweeds_wy2_and_wy3 wy2 wy3 =
      some ⟨wy3.timeFormat, "WY2+WY3", some h,
        npUnique (wy2.time ++ wy3.time),
        scatterRows (npUnique (wy2.time ++ wy3.time)) wy3.time wy3.rows
          (scatterRows (npUnique (wy2.time ++ wy3.time)) wy2.time wy2.rows
            (List.replicate (npUnique (wy2.time ++ wy3.time)).length
              ⟨0, 0, 0, 0, 0⟩))⟩ := by
  rw [join_daily_cweeds_wy2_and_wy3, if_pos ⟨h2f, h3f, htf⟩, hh]

theorem mem_of_getElemOpt {l : List α} {i : ℕ} {a : α}
    (h : l[i]? = some a) : a ∈ l := by
  rw [List.getElem?_eq_some] at h
  obtain ⟨hl, he⟩ := h
  exact he ▸ List.getElem_mem hl

theorem lt_of_getElemOpt {l : List α} {i : ℕ} {a : α}
    (h : l[i]? = some a) : i < l.length := by
  rw [List.getElem?_eq_some] at h
  exact h.1

/-- The merged dataset of a successful join, with its components spelled
out (shared by the C1 and C10 arguments). -/
theorem join_parts (wy2 wy3 : CweedsDataset) (h : CweedsHeader)
    (h2f : wy2.cweedsFormat = "WY2") (h3f : wy3.cweedsFormat = "WY3")
    (htf : wy2.timeFormat = wy3.timeFormat) (hh : wy3.header = some h)
    (hnd3 : wy3.time.Nodup)
    (hl3 : wy3.time.length = wy3.rows.length) :
    ∃ m, join_daily_cweeds_wy2_and_wy3 wy2 wy3 = some m ∧
      m.timeFormat = wy3.timeFormat ∧
      m.header = some h ∧
      m.time = npUnique (wy2.time ++ wy3.time) ∧
      List.Sorted (· < ·) m.time ∧ m.time.Nodup ∧
      m.rows.length = m.time.length ∧
      (∀ (i : ℕ) (t : ℚ), wy3.time[i]? = some t →
        ∃ (j : ℕ), m.time[j]? = some t ∧ m.rows[j]? = wy3.rows[i]? ∧
          ∀ (j' : ℕ), m.time[j']? = some t → j' = j) := by
  refine ⟨_, join_eq_some wy2 wy3 h h2f h3f htf hh, rfl, rfl, rfl, ?_, ?_, ?_, ?_⟩
  · exact npUnique_sorted _
  · exact npUnique_nodup _
  · simp [scatterRows_length, List.length_replicate]
  · intro i t hti
    set times := npUnique (wy2.time ++ wy3.time) with htimes
    have hs : List.Sorted (· < ·) times := npUnique_sorted _
    have htmem : t ∈ times := by
      rw [htimes, npUnique_mem]
      exact List.mem_append_right _ (mem_of_getElemOpt hti)
    have hi : i < wy3.time.length := lt_of_getElemOpt hti
    have hir : i < wy3.rows.length := hl3 ▸ hi
    have hri : wy3.rows[i]? = some wy3.rows[i] := List.getElem?_eq_getElem hir
    refine ⟨digitizeRight times t, (digitizeRight_mem times hs t htmem).2, ?_, ?_⟩
    · rw [hri]
      exact scatterRows_hit times hs wy3.time wy3.rows _
        (by simp [scatterRows_length, List.length_replicate])
        hnd3
        (fun u hu => (npUnique_mem _ u).2 (List.mem_append_right _ hu))
        i t _ hti hri
    · intro j' hj'
      exact List.getElem?_inj (lt_of_getElemOpt hj') (npUnique_nodup _)
        (hj'.trans (digitizeRight_mem times hs t htmem).2.symm)

/-- **C1** (counterexample to the claim as stated).  Two single-row daily
datasets sharing the time coordinate 0 with different field values: the
join succeeds, but the WY2 source row does not appear anywhere in the
merged result — it is overwritten by the WY3 row, so not *every* row of
each source dataset appears in the merged result. -/
theorem C1_counterexample :
    join_daily_cweeds_wy2_and_wy3 cw2ex cw3ex =
      some ⟨"daily", "WY2+WY3", some cwHdEx, [0], [⟨2000, 1, 1, 1, 2⟩]⟩ ∧
    cw2ex.rows = [⟨2000, 1, 1, 0, 1⟩] ∧
    (⟨2000, 1, 1, 0, 1⟩ : CRow) ∉ ([⟨2000, 1, 1, 1, 2⟩] : List CRow) := by
  refine ⟨?_, rfl, by decide⟩
  rfl

/-- **C1** (amended).  For a WY2/WY3 pair with the asserted format tags,
equal time-unit granularity, a present WY3 header, parallel arrays of
matching length and duplicate-free time arrays: the merged `Time` axis is
strictly increasing and duplicate-free; every row of the WY3 dataset
appears exactly once in the merged result, at the unique index of its
time coordinate in the merged time axis; and every row of the WY2 dataset
whose time coordinate is not also a WY3 time coordinate appears exactly
once at the unique index of its time coordinate.  (WY2 rows at shared
time coordinates are overwritten by the WY3 scatter, so the claim's
"every row of each source dataset" fails for them; see
`C1_counterexample`.) -/
theorem C1_join_time_axis_and_rows (wy2 wy3 : CweedsDataset)
    (h : CweedsHeader)
    (h2f : wy2.cweedsFormat = "WY2") (h3f : wy3.cweedsFormat = "WY3")
    (htf : wy2.timeFormat = wy3.timeFormat) (hh : wy3.header = some h)
    (hl2 : wy2.time.length = wy2.rows.length)
    (hl3 : wy3.time.length = wy3.rows.length)
    (hnd2 : wy2.time.Nodup) (hnd3 : wy3.time.Nodup) :
    ∃ m, join_daily_cweeds_wy2_and_wy3 wy2 wy3 = some m ∧
      List.Sorted (· < ·) m.time ∧ m.time.Nodup ∧
      m.rows.length = m.time.length ∧
      (∀ (i : ℕ) (t : ℚ), wy3.time[i]? = some t →
        ∃ (j : ℕ), m.time[j]? = some t ∧ m.rows[j]? = wy3.rows[i]? ∧
          ∀ (j' : ℕ), m.time[j']? = some t → j' = j) ∧
      (∀ (i : ℕ) (t : ℚ), wy2.time[i]? = some t → t ∉ wy3.time →
        ∃ (j : ℕ), m.time[j]? = some t ∧ m.rows[j]? = wy2.rows[i]? ∧
          ∀ (j' : ℕ), m.time[j']? = some t → j' = j) := by
  obtain ⟨m, hm, -, -, hmt, hsor, hnd, hlen, hwy3⟩ :=
    join_parts wy2 wy3 h h2f h3f htf hh hnd3 hl3
  refine ⟨m, hm, hsor, hnd, hlen, hwy3, ?_⟩
  intro i t hti htnot
  set times := npUnique (wy2.time ++ wy3.time) with htimes
  have hs : List.Sorted (· < ·) times := npUnique_sorted _
  have htmem : t ∈ times := by
    rw [htimes, npUnique_mem]
    exact List.mem_append_left _ (mem_of_getElemOpt hti)
  have hi : i < wy2.time.length := lt_of_getElemOpt hti
  have hir : i < wy2.rows.length := hl2 ▸ hi
  have hri : wy2.rows[i]? = some wy2.rows[i] := List.getElem?_eq_getElem hir
  have hmrows : m.rows = scatterRows times wy3.time wy3.rows
      (scatterRows times wy2.time wy2.rows
        (List.replicate times.length ⟨0, 0, 0, 0, 0⟩)) := by
    rw [join_eq_some wy2 wy3 h h2f h3f htf hh] at hm
    cases hm
    rfl
  refine ⟨digitizeRight times t, ?_, ?_, ?_⟩
  · rw [hmt]
    exact (digitizeRight_mem times hs t htmem).2
  · rw [hmrows, hri]
    have huntouched : ∀ u ∈ wy3.time,
        digitizeRight times u ≠ digitizeRight times t := by
      intro u hu hcontra
      have : u = t := digitizeRight_inj times hs u t
        ((npUnique_mem _ u).2 (List.mem_append_right _ hu)) htmem hcontra
      exact htnot (this ▸ hu)
    rw [scatterRows_untouched times wy3.time wy3.rows _ _ huntouched]
    exact scatterRows_hit times hs wy2.time wy2.rows _
      (by simp [scatterRows_length, List.length_replicate]) hnd2
      (fun u hu => (npUnique_mem _ u).2 (List.mem_append_left _ hu))
      i t _ hti hri
  · intro j' hj'
    rw [hmt] at hj'
    exact List.getElem?_inj (lt_of_getElemOpt hj') (npUnique_nodup _)
      (hj'.trans (digitizeRight_mem times hs t htmem).2.symm)

/-- Witness for the amended C1 at concrete inputs. -/
theorem C1_join_time_axis_and_rows_witness :
    (cw2ex'.cweedsFormat = "WY2" ∧ cw3ex'.cweedsFormat = "WY3" ∧
     cw2ex'.timeFormat = cw3ex'.timeFormat ∧ cw3ex'.header = some cwHdEx ∧
     cw2ex'.time.length = cw2ex'.rows.length ∧
     cw3ex'.time.length = cw3ex'.rows.length ∧
     cw2ex'.time.Nodup ∧ cw3ex'.time.Nodup) ∧
    (∃ m, join_daily_cweeds_wy2_and_wy3 cw2ex' cw3ex' = some m ∧
      List.Sorted (· < ·) m.time ∧ m.time.Nodup ∧
      m.rows.length = m.time.length ∧
      (∀ (i : ℕ) (t : ℚ), cw3ex'.time[i]? = some t →
        ∃ (j : ℕ), m.time[j]? = some t ∧ m.rows[j]? = cw3ex'.rows[i]? ∧
          ∀ (j' : ℕ), m.time[j']? = some t → j' = j) ∧
      (∀ (i : ℕ) (t : ℚ), cw2ex'.time[i]? = some t → t ∉ cw3ex'.time →
        ∃ (j : ℕ), m.time[j]? = some t ∧ m.rows[j]? = cw2ex'.rows[i]? ∧
          ∀ (j' : ℕ), m.time[j']? = some t → j' = j)) :=
  ⟨⟨rfl, rfl, rfl, rfl, rfl, rfl, by decide, by decide⟩,
    C1_join_time_axis_and_rows cw2ex' cw3ex' cwHdEx rfl rfl rfl rfl rfl rfl
      (by decide) (by decide)⟩

/-- **C10**.  Whenever the WY2 and WY3 inputs share a time coordinate, the
merged dataset's field values at that coordinate are the WY3 dataset's
values (the WY3 scatter runs after the WY2 one and wins every collision),
and the scalar header metadata of the merged dataset is copied from the
WY3 input. -/
theorem C10_join_wy3_wins (wy2 wy3 : CweedsDataset) (h : CweedsHeader)
    (h2f : wy2.cweedsFormat = "WY2") (h3f : wy3.cweedsFormat = "WY3")
    (htf : wy2.timeFormat = wy3.timeFormat) (hh : wy3.header = some h)
    (hl3 : wy3.time.length = wy3.rows.length)
    (hnd3 : wy3.time.Nodup) :
    ∃ m, join_daily_cweeds_wy2_and_wy3 wy2 wy3 = some m ∧
      m.header = wy3.header ∧ m.timeFormat = wy3.timeFormat ∧
      ∀ (i : ℕ) (t : ℚ), wy3.time[i]? = some t → t ∈ wy2.time →
        ∃ (j : ℕ), m.time[j]? = some t ∧ m.rows[j]? = wy3.rows[i]? := by
  obtain ⟨m, hm, hmtf, hmh, -, -, -, -, hwy3⟩ :=
    join_parts wy2 wy3 h h2f h3f htf hh hnd3 hl3
  refine ⟨m, hm, hh ▸ hmh, hmtf, ?_⟩
  intro i t hti _
  obtain ⟨j, hj1, hj2, -⟩ := hwy3 i t hti
  exact ⟨j, hj1, hj2⟩

/-- Witness for C10 at concrete inputs (shared time coordinate 2). -/
theorem C10_join_wy3_wins_witness :
    (cw2ex'.cweedsFormat = "WY2" ∧ cw3ex'.cweedsFormat = "WY3" ∧
     cw2ex'.timeFormat = cw3ex'.timeFormat ∧ cw3ex'.header = some cwHdEx ∧
     cw3ex'.time.length = cw3ex'.rows.length ∧ cw3ex'.time.Nodup) ∧
    (∃ m, join_daily_cweeds_wy2_and_wy3 cw2ex' cw3ex' = some m ∧
      m.header = cw3ex'.header ∧ m.timeFormat = cw3ex'.timeFormat ∧
      ∀ (i : ℕ) (t : ℚ), cw3ex'.time[i]? = some t → t ∈ cw2ex'.time →
        ∃ (j : ℕ), m.time[j]? = some t ∧ m.rows[j]? = cw3ex'.rows[i]?) :=
  ⟨⟨rfl, rfl, rfl, rfl, rfl, by decide⟩,
    C10_join_wy3_wins cw2ex' cw3ex' cwHdEx rfl rfl rfl rfl rfl (by decide)⟩

/-! ## `omap` and `chunkList` lemmas -/

theorem omap_length (f : α → Option β) (l : List α) (bs : List β)
    (h : omap f l = some bs) : bs.length = l.length := by
  induction l generalizing bs with
  | nil =>
    simp only [omap, Option.some_inj] at h
    subst h
    rfl
  | cons a as ih =>
    rw [omap] at h
    cases hfa : f a with
    | none => rw [hfa] at h; simp at h
    | some b =>
      cases hoa : omap f as with
      | none => rw [hfa, hoa] at h; simp at h
      | some bs' =>
        rw [hfa, hoa] at h
        simp only [Option.some_inj] at h
        subst h
        simp [ih bs' hoa]

theorem omap_getElem (f : α → Option β) (l : List α) (bs : List β)
    (h : omap f l = some bs) (i : ℕ) : bs[i]? = (l[i]?).bind f := by
  induction l generalizing bs i with
  | nil =>
    simp only [omap, Option.some_inj] at h
    subst h
    simp
  | cons a as ih =>
    rw [omap] at h
    cases hfa : f a with
    | none => rw [hfa] at h; simp at h
    | some b =>
      cases hoa : omap f as with
      | none => rw [hfa, hoa] at h; simp at h
      | some bs' =>
        rw [hfa, hoa] at h
        simp only [Option.some_inj] at h
        subst h
        cases i with
        | zero => simp [hfa]
        | succ i => simp [ih bs' hoa i]

theorem omap_isSome (f : α → Option β) (l : List α)
    (h : ∀ a ∈ l, (f a).isSome) : (omap f l).isSome := by
  induction l with
  | nil => simp [omap]
  | cons a as ih =>
    rw [omap]
    cases hfa : f a with
    | none =>
      have := h a (List.mem_cons_self a as)
      rw [hfa] at this
      simp at this
    | some b =>
      have := ih (fun x hx => h x (List.mem_cons_of_mem a hx))
      cases hoa : omap f as with
      | none => rw [hoa] at this; simp at this
      | some bs => simp

theorem chunkList_cons_eq (c : ℕ) (hc : 0 < c) (x : α) (xs : List α) :
    chunkList c (x :: xs) =
      (x :: xs).take c :: chunkList c ((x :: xs).drop c) := by
  obtain ⟨c, rfl⟩ : ∃ c', c = c' + 1 := ⟨c - 1, by omega⟩
  rw [chunkList]
  simp

theorem chunkList_getElem (c : ℕ) (hc : 0 < c) (l : List α) (i : ℕ) :
    (chunkList c l)[i]? =
      if l.length ≤ c * i then none
      else some ((l.drop (c * i)).take c) := by
  induction i generalizing l with
  | zero =>
    cases l with
    | nil => simp [chunkList]
    | cons x xs =>
      rw [chunkList_cons_eq c hc]
      rw [if_neg (by simp)]
      simp
  | succ i ih =>
    cases l with
    | nil => simp [chunkList]
    | cons x xs =>
      rw [chunkList_cons_eq c hc, List.getElem?_cons_succ, ih]
      rw [List.length_drop]
      have harith : c + c * i = c * (i + 1) := by ring
      by_cases hcond : (x :: xs).length ≤ c * (i + 1)
      · rw [if_pos (by omega), if_pos hcond]
      · rw [if_neg (by omega), if_neg hcond, List.drop_drop, harith]
        

theorem chunkList_length (c : ℕ) (hc : 0 < c) (k : ℕ) (l : List α)
    (hl : l.length = c * k) : (chunkList c l).length = k := by
  induction k generalizing l with
  | zero =>
    have hnil : l = [] := List.eq_nil_of_length_eq_zero (by omega)
    subst hnil
    simp [chunkList]
  | succ k ih =>
    cases l with
    | nil => simp at hl; omega
    | cons x xs =>
      rw [chunkList_cons_eq c hc, List.length_cons]
      have hdrop : ((x :: xs).drop c).length = c * k := by
        rw [List.length_drop]
        have hexp : c * (k + 1) = c * k + c := by ring
        rw [hexp] at hl
        simp only [List.length_cons] at hl ⊢
        omega
      rw [ih _ hdrop]

theorem chunkList_ne_nil (c : ℕ) (l : List α) :
    ∀ b ∈ chunkList c l, b ≠ [] := by
  have key : ∀ (n : ℕ) (l : List α), l.length ≤ n →
      ∀ b ∈ chunkList c l, b ≠ [] := by
    intro n
    induction n with
    | zero =>
      intro l hl
      have hnil : l = [] := List.eq_nil_of_length_eq_zero (by omega)
      subst hnil
      simp [chunkList]
    | succ n ih =>
      intro l hl b hb
      cases l with
      | nil => simp [chunkList] at hb
      | cons x xs =>
        rw [chunkList] at hb
        rcases List.mem_cons.mp hb with h | h
        · subst h; simp
        · refine ih (xs.drop (c - 1)) ?_ b h
          have := (List.drop_sublist (c - 1) xs).length_le
          simp only [List.length_cons] at hl
          omega
  exact key l.length l le_rfl

theorem head?_take_pos (c : ℕ) (hc : 0 < c) (l : List α) :
    (l.take c).head? = l.head? := by
  cases l with
  | nil => simp
  | cons x xs =>
    obtain ⟨c, rfl⟩ : ∃ c', c = c' + 1 := ⟨c - 1, by omega⟩
    simp

/-! ## Fidelity of the kernel-evaluable irradiance conversion -/

/-- The merged irradiance field `Rat.divInt q.num (q.den * 1000)` used in
`parseCweedsLine` is exactly the source's `q / 1000`. -/
theorem parseCweedsLine_irr_eq_div (q : ℚ) :
    Rat.divInt q.num ((q.den : ℤ) * 1000) = q / 1000 := by
  rw [Rat.divInt_eq_div]
  push_cast
  rw [div_mul_eq_div_div, Rat.num_div_den]

/-! ## C8: daily aggregation of a CWEEDS file -/

theorem readCweedsHourly_length (ext : String) (lines : List (List String))
    (timeOf : ℤ → ℤ → ℤ → ℤ → ℚ) (hdr : Option CweedsHeader)
    (hrows : List (ℚ × CRow))
    (h : readCweedsHourly ext lines timeOf = some (hdr, hrows)) :
    hrows.length = cweedsDataRowCount ext lines := by
  by_cases h2 : ext = "WY2"
  · rw [readCweedsHourly.eq_def, if_pos h2] at h
    cases homap : omap (parseCweedsLine 0 timeOf) lines with
    | none => rw [homap] at h; simp at h
    | some rs =>
      rw [homap] at h
      simp only [Option.map_some', Option.some_inj, Prod.mk.injEq] at h
      rw [cweedsDataRowCount, if_neg (by rw [h2]; decide), ← h.2]
      exact omap_length _ _ _ homap
  · by_cases h3 : ext = "WY3"
    · rw [readCweedsHourly.eq_def, if_neg h2, if_pos h3] at h
      cases lines with
      | nil => simp at h
      | cons hrow rest =>
        replace h : (parseCweedsHeader hrow).bind (fun hd =>
            (omap (parseCweedsLine 2 timeOf) rest).bind (fun rs =>
              some (some hd, rs))) = some (hdr, hrows) := h
        cases hph : parseCweedsHeader hrow with
        | none => rw [hph] at h; simp at h
        | some hd =>
          rw [hph] at h
          cases homap : omap (parseCweedsLine 2 timeOf) rest with
          | none => rw [homap] at h; simp at h
          | some rs =>
            rw [homap] at h
            simp only [Option.some_bind, Option.some_inj, Prod.mk.injEq] at h
            rw [cweedsDataRowCount, if_pos h3, ← h.2]
            rw [omap_length _ _ _ homap]
            simp
    · rw [readCweedsHourly.eq_def, if_neg h2, if_neg h3] at h
      simp at h

/-- **C8**.  With daily aggregation enabled, `read_cweeds_file` fails on
every input whose number of data rows is not an exact multiple of 24, and
on a 24·k-row input whose hourly stage succeeds it produces k daily
entries where each `Irradiance` value is the sum of its 24-row block, the
calendar fields and the time coordinate come from the block's first row,
and every `Hours` entry is zero. -/
theorem C8_read_cweeds_daily :
    (∀ (ext : String) (lines : List (List String))
      (timeOf : ℤ → ℤ → ℤ → ℤ → ℚ),
      cweedsDataRowCount ext lines % 24 ≠ 0 →
      read_cweeds_file ext lines timeOf true = none) ∧
    (∀ (ext : String) (lines : List (List String))
      (timeOf : ℤ → ℤ → ℤ → ℤ → ℚ) (hdr : Option CweedsHeader)
      (hrows : List (ℚ × CRow)) (k : ℕ),
      readCweedsHourly ext lines timeOf = some (hdr, hrows) →
      hrows.length = 24 * k →
      ∃ d, read_cweeds_file ext lines timeOf true = some d ∧
        d.timeFormat = "daily" ∧ d.cweedsFormat = ext ∧ d.header = hdr ∧
        d.time.length = k ∧ d.rows.length = k ∧
        (∀ (i : ℕ) (p : ℚ × CRow), hrows[24 * i]? = some p →
          d.time[i]? = some p.1 ∧
          d.rows[i]? = some ⟨p.2.year, p.2.month, p.2.day, 0,
            blockIrrSum ((hrows.drop (24 * i)).take 24)⟩)) := by
  constructor
  · intro ext lines timeOf hne
    cases hrh : readCweedsHourly ext lines timeOf with
    | none => simp [read_cweeds_file, hrh]
    | some pr =>
      obtain ⟨hdr, hrows⟩ := pr
      have hlen := readCweedsHourly_length ext lines timeOf hdr hrows hrh
      rw [← hlen] at hne
      simp [read_cweeds_file, hrh, hne]
  · intro ext lines timeOf hdr hrows k hrh hlen
    have h24 : hrows.length % 24 = 0 := by omega
    have hblen : (chunkList 24 hrows).length = k :=
      chunkList_length 24 (by norm_num) k hrows hlen
    have hnnil := chunkList_ne_nil 24 hrows
    have hsome : ∀ b ∈ chunkList 24 hrows,
        ((fun (b : List (ℚ × CRow)) => b.head?.map
          (fun p => (p.1, CRow.mk p.2.year p.2.month p.2.day 0
            (blockIrrSum b)))) b).isSome := by
      intro b hb
      cases b with
      | nil => exact absurd rfl (hnnil [] hb)
      | cons q qs => simp
    obtain ⟨daily, hdaily⟩ :=
      Option.isSome_iff_exists.mp (omap_isSome _ _ hsome)
    have hdlen : daily.length = k := by
      rw [omap_length _ _ _ hdaily, hblen]
    refine ⟨⟨"daily", ext, hdr, daily.map (·.1), daily.map (·.2)⟩,
      ?_, rfl, rfl, rfl, by simp [hdlen], by simp [hdlen], ?_⟩
    · simp [read_cweeds_file, hrh, h24, hdaily]
    · intro i p hip
      have hi24 : 24 * i < hrows.length := lt_of_getElemOpt hip
      have hbi : (chunkList 24 hrows)[i]? =
          some ((hrows.drop (24 * i)).take 24) := by
        rw [chunkList_getElem 24 (by norm_num) hrows i, if_neg (by omega)]
      have hbhead : ((hrows.drop (24 * i)).take 24).head? = some p := by
        rw [head?_take_pos 24 (by norm_num), List.head?_eq_getElem?,
          List.getElem?_drop]
        simpa using hip
      have hdi : daily[i]? = some (p.1,
          ⟨p.2.year, p.2.month, p.2.day, 0,
            blockIrrSum ((hrows.drop (24 * i)).take 24)⟩) := by
        rw [omap_getElem _ _ _ hdaily i, hbi]
        simp [hbhead]
      constructor
      · simp [List.getElem?_map, hdi]
      · simp [List.getElem?_map, hdi]

/-- Witness for C8: the failure half at a 23-row file, the success half at
the 24-row file `cwLinesEx`. -/
theorem C8_read_cweeds_daily_witness :
    (cweedsDataRowCount "WY2" (cwLinesEx.take 23) % 24 ≠ 0 ∧
      read_cweeds_file "WY2" (cwLinesEx.take 23) cwTimeEx true = none) ∧
    (readCweedsHourly "WY2" cwLinesEx cwTimeEx = some (none, cwHRowsEx) ∧
      cwHRowsEx.length = 24 * 1 ∧
      ∃ d, read_cweeds_file "WY2" cwLinesEx cwTimeEx true = some d ∧
        d.timeFormat = "daily" ∧ d.cweedsFormat = "WY2" ∧ d.header = none ∧
        d.time.length = 1 ∧ d.rows.length = 1 ∧
        (∀ (i : ℕ) (p : ℚ × CRow), cwHRowsEx[24 * i]? = some p →
          d.time[i]? = some p.1 ∧
          d.rows[i]? = some ⟨p.2.year, p.2.month, p.2.day, 0,
            blockIrrSum ((cwHRowsEx.drop (24 * i)).take 24)⟩)) :=
  ⟨⟨by decide, C8_read_cweeds_daily.1 "WY2" (cwLinesEx.take 23) cwTimeEx
      (by decide)⟩,
    ⟨by decide, by decide,
      C8_read_cweeds_daily.2 "WY2" cwLinesEx cwTimeEx none cwHRowsEx 1
        (by decide) (by decide)⟩⟩

/-! ## Except fold lemmas (the writer's per-year loop) -/

theorem except_bind_ok {ε α β : Type} (a : α) (f : α → Except ε β) :
    (Except.ok a : Except ε α) >>= f = f a := rfl

theorem except_bind_error {ε α β : Type} (e : ε) (f : α → Except ε β) :
    (Except.error e : Except ε α) >>= f = Except.error e := rfl

theorem exceptFold_error {ε γ α : Type} (g : α → Except ε (List γ))
    (l : List α) (y : α) (hy : y ∈ l) (e : ε) (he : g y = .error e) :
    ∀ acc, ∃ e', l.foldlM (fun acc a => (g a).map (acc ++ ·)) acc =
      Except.error e' := by
  induction l with
  | nil => simp at hy
  | cons a as ih =>
    intro acc
    rw [List.foldlM_cons]
    cases hga : g a with
    | error e2 => exact ⟨e2, rfl⟩
    | ok v =>
      rcases List.mem_cons.mp hy with hya | hmem
      · subst hya
        rw [he] at hga
        cases hga
      · exact ih hmem (acc ++ v)

theorem exceptFold_ok {ε γ α : Type} (g : α → Except ε (List γ))
    (R : α → List γ) (l : List α) (h : ∀ a ∈ l, g a = .ok (R a)) :
    ∀ acc, l.foldlM (fun acc a => (g a).map (acc ++ ·)) acc =
      Except.ok (acc ++ l.flatMap R) := by
  induction l with
  | nil =>
    intro acc
    simp only [List.foldlM_nil, List.flatMap_nil, List.append_nil]
    rfl
  | cons a as ih =>
    intro acc
    rw [List.foldlM_cons, h a (List.mem_cons_self a as)]
    have h2 : acc ++ (a :: as).flatMap R = (acc ++ R a) ++ as.flatMap R := by
      rw [List.flatMap_cons, List.append_assoc]
    rw [h2]
    exact ih (fun x hx => h x (List.mem_cons_of_mem a hx)) (acc ++ R a)

/-! ## `np.where` / fancy-index selection lemmas -/

theorem npWhereEq_length [DecidableEq α] (l : List α) (y : α) :
    (npWhereEq l y).length = l.count y := by
  induction l with
  | nil => rfl
  | cons a as ih =>
    rw [npWhereEq, List.count_cons]
    by_cases h : a = y
    · rw [if_pos h]
      simp [ih, h]
    · rw [if_neg h]
      have : (a == y) = false := by simpa using h
      simp [ih, this]

theorem omap_congr (f f' : α → Option β) (l : List α)
    (h : ∀ a ∈ l, f a = f' a) : omap f l = omap f' l := by
  induction l with
  | nil => rfl
  | cons a as ih =>
    rw [omap, omap, h a (List.mem_cons_self a as),
      ih (fun x hx => h x (List.mem_cons_of_mem a hx))]

theorem omap_map (f : β → Option γ) (g : α → β) (l : List α) :
    omap f (l.map g) = omap (fun a => f (g a)) l := by
  induction l with
  | nil => rfl
  | cons a as ih => rw [List.map_cons, omap, omap, ih]

theorem npSelect_npWhereEq (years : List ℤ) (data : List ℚ) (y : ℤ)
    (h : years.length = data.length) :
    npSelect data (npWhereEq years y) = some (yearValues years data y) := by
  induction years generalizing data with
  | nil =>
    cases data with
    | nil => rfl
    | cons b bs => simp at h
  | cons a as ih =>
    cases data with
    | nil => simp at h
    | cons b bs =>
      have h' : as.length = bs.length := by simpa using h
      have hshift : npSelect (b :: bs) ((npWhereEq as y).map (· + 1)) =
          npSelect bs (npWhereEq as y) := by
        rw [npSelect, npSelect, omap_map]
        exact omap_congr _ _ _ (fun i _ => rfl)
      have hval : yearValues (a :: as) (b :: bs) y =
          (if a = y then [b] else []) ++ yearValues as bs y := by
        rw [yearValues, yearValues, List.zip_cons_cons, List.filterMap_cons]
        by_cases hay : a = y
        · simp [hay]
        · simp [hay]
      rw [npWhereEq, hval]
      by_cases hay : a = y
      · rw [if_pos hay, if_pos hay, npSelect, omap]
        have hsh := hshift
        rw [npSelect, npSelect] at hsh
        have ih' := ih bs h'
        rw [npSelect] at ih'
        rw [hsh, ih']
        rfl
      · rw [if_neg hay, if_neg hay, List.nil_append]
        exact hshift.trans (ih bs h')

theorem yearValues_length (years : List ℤ) (data : List ℚ) (y : ℤ)
    (h : years.length = data.length) :
    (yearValues years data y).length = years.count y := by
  have := npSelect_npWhereEq years data y h
  rw [npSelect] at this
  have hlen := omap_length _ _ _ this
  rw [hlen, npWhereEq_length]

/-! ## The writer's per-year block -/

theorem daysInYear_padded (n : ℕ) (hn : n = 365 ∨ n = 366) :
    n + (10 - n % 10) = 37 * 10 := by
  rcases hn with rfl | rfl <;> rfl

theorem daysInYear_cases (y : ℤ) : daysInYear y = 365 ∨ daysInYear y = 366 := by
  rw [daysInYear]
  by_cases h : pyIsLeap y = true
  · rw [if_pos h]; right; rfl
  · rw [if_neg h]; left; rfl

theorem formatYearBlock_ok (years : List ℤ) (data : List ℚ) (d : ℕ) (y : ℤ)
    (hlen : years.length = data.length)
    (hy : years.count y = daysInYear y) :
    formatYearBlock years data d y = .ok
      ((chunkList 10 (yearValues years data y ++
        List.replicate (10 - (yearValues years data y).length % 10) 0)).map
        (fun r => (y, r.map (roundTo d)))) := by
  have hvlen : (yearValues years data y).length = daysInYear y := by
    rw [yearValues_length years data y hlen, hy]
  have hplen : (yearValues years data y ++
      List.replicate (10 - (yearValues years data y).length % 10)
        (0 : ℚ)).length = 37 * 10 := by
    rw [List.length_append, List.length_replicate, hvlen]
    exact daysInYear_padded _ (daysInYear_cases y)
  rw [formatYearBlock]
  rw [if_pos (by rw [npWhereEq_length]; exact hy)]
  rw [npSelect_npWhereEq years data y hlen]
  simp only [toExcept, except_bind_ok]
  rw [npReshape, if_pos hplen]
  simp only [toExcept, except_bind_ok]

/-! ## `groupRuns` over year blocks -/

theorem takeWhile_all_append (p : α → Bool) (l₁ l₂ : List α)
    (h : ∀ x ∈ l₁, p x = true) :
    (l₁ ++ l₂).takeWhile p = l₁ ++ l₂.takeWhile p := by
  induction l₁ with
  | nil => rfl
  | cons a as ih =>
    rw [List.cons_append, List.takeWhile_cons,
      h a (List.mem_cons_self a as),
      ih (fun x hx => h x (List.mem_cons_of_mem a hx))]
    simp

theorem dropWhile_all_append (p : α → Bool) (l₁ l₂ : List α)
    (h : ∀ x ∈ l₁, p x = true) :
    (l₁ ++ l₂).dropWhile p = l₂.dropWhile p := by
  induction l₁ with
  | nil => rfl
  | cons a as ih =>
    rw [List.cons_append, List.dropWhile_cons,
      h a (List.mem_cons_self a as),
      ih (fun x hx => h x (List.mem_cons_of_mem a hx))]
    simp

theorem groupRuns_block (y : ℤ) (v0 : List ℚ) (more rest : List (ℤ × List ℚ))
    (hmore : ∀ r ∈ more, r.1 = y)
    (hrest : rest.head?.elim True (fun r => r.1 ≠ y)) :
    groupRuns (((y, v0) :: more) ++ rest) =
      (y, v0 ++ (more.map (·.2)).flatten) :: groupRuns rest := by
  rw [List.cons_append, groupRuns]
  have hall : ∀ r ∈ more, (fun (r : ℤ × List ℚ) => decide (r.1 = y)) r = true := by
    intro r hr
    simp [hmore r hr]
  have htw : (more ++ rest).takeWhile (fun r => decide (r.1 = y)) = more := by
    rw [takeWhile_all_append _ _ _ hall]
    cases rest with
    | nil => simp
    | cons r rs =>
      simp only [Option.elim, List.head?_cons] at hrest
      rw [List.takeWhile_cons, decide_eq_false hrest]
      simp
  have hdw : (more ++ rest).dropWhile (fun r => decide (r.1 = y)) = rest := by
    rw [dropWhile_all_append _ _ _ hall]
    cases rest with
    | nil => rfl
    | cons r rs =>
      simp only [Option.elim, List.head?_cons] at hrest
      rw [List.dropWhile_cons, decide_eq_false hrest]
      simp
  rw [htw, hdw]

theorem chunkList_flatten (c : ℕ) (hc : 0 < c) (l : List α) :
    (chunkList c l).flatten = l := by
  have key : ∀ (n : ℕ) (l : List α), l.length ≤ n →
      (chunkList c l).flatten = l := by
    intro n
    induction n with
    | zero =>
      intro l hl
      have hnil : l = [] := List.eq_nil_of_length_eq_zero (by omega)
      subst hnil
      simp [chunkList]
    | succ n ih =>
      intro l hl
      cases l with
      | nil => simp [chunkList]
      | cons x xs =>
        rw [chunkList_cons_eq c hc, List.flatten_cons, ih ((x :: xs).drop c)
          (by have hc1 : 0 < c := hc
              rw [List.length_drop]
              simp only [List.length_cons] at hl ⊢
              omega),
          List.take_append_drop]
  exact key l.length l le_rfl

theorem groupRuns_flatMap (R : ℤ → List (ℤ × List ℚ)) (l : List ℤ)
    (hnd : l.Nodup) (hne : ∀ y ∈ l, R y ≠ [])
    (hfst : ∀ y ∈ l, ∀ r ∈ R y, r.1 = y) :
    groupRuns (l.flatMap R) =
      l.map (fun y => (y, ((R y).map (·.2)).flatten)) := by
  induction l with
  | nil => simp [groupRuns]
  | cons y ys ih =>
    rw [List.flatMap_cons]
    obtain ⟨r0, more, hR⟩ : ∃ r0 more, R y = r0 :: more := by
      cases hRy : R y with
      | nil => exact absurd hRy (hne y (List.mem_cons_self y ys))
      | cons r0 more => exact ⟨r0, more, rfl⟩
    have hr0 : r0.1 = y :=
      hfst y (List.mem_cons_self y ys) r0 (hR ▸ List.mem_cons_self r0 more)
    have hr0eta : r0 = (y, r0.2) := by
      rw [← hr0]
    have hmore : ∀ r ∈ more, r.1 = y := by
      intro r hr
      exact hfst y (List.mem_cons_self y ys) r (hR ▸ List.mem_cons_of_mem r0 hr)
    rw [List.nodup_cons] at hnd
    have hrest : (ys.flatMap R).head?.elim True
        (fun (r : ℤ × List ℚ) => r.1 ≠ y) := by
      cases ys with
      | nil => simp
      | cons y1 ys1 =>
        obtain ⟨r1, more1, hR1⟩ : ∃ r1 more1, R y1 = r1 :: more1 := by
          cases hRy : R y1 with
          | nil =>
            exact absurd hRy (hne y1 (List.mem_cons_of_mem y
              (List.mem_cons_self y1 ys1)))
          | cons r1 more1 => exact ⟨r1, more1, rfl⟩
        have hr1 : r1.1 = y1 := hfst y1
          (List.mem_cons_of_mem y (List.mem_cons_self y1 ys1)) r1
          (hR1 ▸ List.mem_cons_self r1 more1)
        rw [List.flatMap_cons, hR1]
        simp only [List.cons_append, List.head?_cons, Option.elim]
        rw [hr1]
        intro hcontra
        exact hnd.1 (hcontra ▸ List.mem_cons_self y1 ys1)
    rw [hR, hr0eta, groupRuns_block y r0.2 more (ys.flatMap R) hmore hrest]
    rw [ih hnd.2 (fun u hu => hne u (List.mem_cons_of_mem y hu))
      (fun u hu => hfst u (List.mem_cons_of_mem y hu))]
    rw [List.map_cons, hR, List.map_cons, List.flatten_cons]

/-! ## The rounding bound -/

theorem roundTo_abs_le (d : ℕ) (x : ℚ) :
    |roundTo d x - x| ≤ 1 / (2 * 10 ^ d) := by
  rw [roundTo]
  have hpow : (0 : ℚ) < 10 ^ d := by positivity
  have h1 : |x * 10 ^ d - round (x * 10 ^ d)| ≤ 1 / 2 := abs_sub_round _
  rw [abs_sub_comm] at h1
  have h2 : ((round (x * 10 ^ d) : ℤ) : ℚ) / 10 ^ d - x =
      (((round (x * 10 ^ d) : ℤ) : ℚ) - x * 10 ^ d) / 10 ^ d := by
    field_simp
    ring
  rw [h2, abs_div, abs_of_pos hpow, div_le_iff₀ hpow]
  calc |((round (x * 10 ^ d) : ℤ) : ℚ) - x * 10 ^ d| ≤ 1 / 2 := h1
    _ = 1 / (2 * 10 ^ d) * 10 ^ d := by field_simp

/-! ## C2: write / re-parse round trip -/

/-- **C2**.  For years/data arrays of equal length in which every year has
exactly its day count of values, the fixed-width writer succeeds, and
re-parsing its data block (grouping lines by their year field and
dropping the trailing zero padding) reconstructs, for each year in
ascending order, the year together with its values in position order —
each value rounded to the `d` decimal places of the chosen numeric field
format, which moves it by at most `1/(2·10^d)`. -/
theorem C2_help_write_reparse (years : List ℤ) (data : List ℚ) (d : ℕ)
    (hlen : years.length = data.length)
    (hcount : ∀ y ∈ years, years.count y = daysInYear y) :
    ∃ rows, format_timeseries_for_HELP years data d = .ok rows ∧
      parseHelpDataBlock rows = (npUnique years).map
        (fun y => (y, (yearValues years data y).map (roundTo d))) ∧
      ∀ x ∈ data, |roundTo d x - x| ≤ 1 / (2 * 10 ^ d) := by
  set R : ℤ → List (ℤ × List ℚ) := fun y =>
    (chunkList 10 (yearValues years data y ++
      List.replicate (10 - (yearValues years data y).length % 10) 0)).map
      (fun r => (y, r.map (roundTo d))) with hRdef
  have hallok : ∀ y ∈ npUnique years,
      formatYearBlock years data d y = .ok (R y) := by
    intro y hy
    exact formatYearBlock_ok years data d y hlen
      (hcount y ((npUnique_mem years y).mp hy))
  have hfmt : format_timeseries_for_HELP years data d =
      .ok ((npUnique years).flatMap R) := by
    rw [format_timeseries_for_HELP]
    have := exceptFold_ok (formatYearBlock years data d) R (npUnique years)
      hallok []
    rw [List.nil_append] at this
    exact this
  refine ⟨_, hfmt, ?_, fun x _ => roundTo_abs_le d x⟩
  have hvlen : ∀ y ∈ npUnique years,
      (yearValues years data y).length = daysInYear y := by
    intro y hy
    rw [yearValues_length years data y hlen]
    exact hcount y ((npUnique_mem years y).mp hy)
  have hplen : ∀ y ∈ npUnique years,
      (yearValues years data y ++
        List.replicate (10 - (yearValues years data y).length % 10)
          (0 : ℚ)).length = 37 * 10 := by
    intro y hy
    rw [List.length_append, List.length_replicate, hvlen y hy]
    exact daysInYear_padded _ (daysInYear_cases y)
  rw [parseHelpDataBlock, groupRuns_flatMap R (npUnique years)
    (npUnique_nodup years) ?hne ?hfst]
  case hne =>
    intro y hy
    have h37 : (R y).length = 37 := by
      rw [hRdef]
      simp only [List.length_map]
      exact chunkList_length 10 (by norm_num) 37 _ (hplen y hy)
    intro hcontra
    rw [hcontra] at h37
    simp at h37
  case hfst =>
    intro y hy r hr
    rw [hRdef] at hr
    simp only [List.mem_map] at hr
    obtain ⟨c, -, hc⟩ := hr
    rw [← hc]
  rw [List.map_map]
  apply List.map_congr_left
  intro y hy
  simp only [Function.comp]
  congr 1
  have hsnd : (R y).map (·.2) =
      (chunkList 10 (yearValues years data y ++
        List.replicate (10 - (yearValues years data y).length % 10) 0)).map
        (List.map (roundTo d)) := by
    rw [hRdef, List.map_map]
    rfl
  rw [hsnd, ← List.map_flatten, chunkList_flatten 10 (by norm_num),
    List.map_append]
  have htake : ((yearValues years data y).map (roundTo d)).length =
      daysInYear y := by
    rw [List.length_map]
    exact hvlen y hy
  rw [← htake, List.take_left]

/-- Witness for C2: one complete non-leap year of zeros. -/
theorem C2_help_write_reparse_witness :
    (c2Years.length = c2Data.length ∧
      ∀ y ∈ c2Years, c2Years.count y = daysInYear y) ∧
    (∃ rows, format_timeseries_for_HELP c2Years c2Data 1 = .ok rows ∧
      parseHelpDataBlock rows = (npUnique c2Years).map
        (fun y => (y, (yearValues c2Years c2Data y).map (roundTo 1))) ∧
      ∀ x ∈ c2Data, |roundTo 1 x - x| ≤ 1 / (2 * 10 ^ 1)) :=
  ⟨⟨by
      show (List.replicate 365 (2001 : ℤ)).length =
        (List.replicate 365 (0 : ℚ)).length
      rw [List.length_replicate, List.length_replicate], by
      intro y hy
      have hy2 : y = 2001 := List.eq_of_mem_replicate hy
      subst hy2
      show (List.replicate 365 (2001 : ℤ)).count 2001 = daysInYear 2001
      rw [List.count_replicate]
      decide⟩,
    C2_help_write_reparse c2Years c2Data 1 (by
      show (List.replicate 365 (2001 : ℤ)).length =
        (List.replicate 365 (0 : ℚ)).length
      rw [List.length_replicate, List.length_replicate]) (by
      intro y hy
      have hy2 : y = 2001 := List.eq_of_mem_replicate hy
      subst hy2
      show (List.replicate 365 (2001 : ℤ)).count 2001 = daysInYear 2001
      rw [List.count_replicate]
      decide)⟩

/-! ## C7: the writer fails on an incomplete year and writes nothing -/

theorem format_timeseries_error (years : List ℤ) (data : List ℚ) (d : ℕ)
    (h : ∃ y ∈ years, years.count y ≠ daysInYear y) :
    ∃ e, format_timeseries_for_HELP years data d = .error e := by
  obtain ⟨y, hy, hne⟩ := h
  rw [format_timeseries_for_HELP]
  exact exceptFold_error (formatYearBlock years data d) (npUnique years) y
    ((npUnique_mem years y).mpr hy) (.incompleteYear y)
    (by rw [formatYearBlock, if_neg (by rw [npWhereEq_length]; exact hne)]) []

/-- **C7**.  Whenever some year occurring in `years` does not have exactly
its day count (365 non-leap / 366 leap) of values, the HELP writer fails
with an error — it neither truncates nor pads — and the file-writing
wrapper leaves the filesystem untouched: no output file, not even a
partial one, is produced. -/
theorem C7_writer_incomplete_year_fails (ext : String) (years : List ℤ)
    (data : List ℚ) (city : String) (lat : Option ℚ) (path : String)
    (fs : List (String × HelpFile))
    (h : ∃ y ∈ years, years.count y ≠ daysInYear y) :
    ∃ e, save_data_to_HELP_format ext years data city lat = .error e ∧
      save_data_to_HELP_file fs path ext years data city lat = .error e := by
  suffices hfmt : ∃ e, save_data_to_HELP_format ext years data city lat =
      .error e by
    obtain ⟨e, he⟩ := hfmt
    exact ⟨e, he, by rw [save_data_to_HELP_file, he]⟩
  by_cases h4 : ext = "D4"
  · obtain ⟨e, he⟩ := format_timeseries_error years data 1 h
    exact ⟨e, by
      simp [save_data_to_HELP_format, h4, he, except_bind_ok,
        except_bind_error]⟩
  · by_cases h7 : ext = "D7"
    · obtain ⟨e, he⟩ := format_timeseries_error years data 1 h
      exact ⟨e, by
        simp [save_data_to_HELP_format, h4, h7, he, except_bind_ok,
          except_bind_error]⟩
    · by_cases h13 : ext = "D13"
      · cases lat with
        | none =>
          exact ⟨.missingLat, by
            simp [save_data_to_HELP_format, h4, h7, h13, except_bind_ok,
              except_bind_error]⟩
        | some la =>
          obtain ⟨e, he⟩ := format_timeseries_error years data 2 h
          exact ⟨e, by
            simp [save_data_to_HELP_format, h4, h7, h13, he, except_bind_ok,
              except_bind_error]⟩
      · exact ⟨.invalidExt ext, by
          simp [save_data_to_HELP_format, h4, h7, h13, except_bind_ok,
            except_bind_error]⟩

/-- Witness for C7: a single day of data for year 2001. -/
theorem C7_writer_incomplete_year_fails_witness :
    (∃ y ∈ ([2001] : List ℤ), ([2001] : List ℤ).count y ≠ daysInYear y) ∧
    (∃ e, save_data_to_HELP_format "D4" [2001] [(0 : ℚ)] "CITY" none =
        .error e ∧
      save_data_to_HELP_file [] "f.D4" "D4" [2001] [(0 : ℚ)] "CITY" none =
        .error e) :=
  ⟨⟨2001, by decide, by decide⟩,
    C7_writer_incomplete_year_fails "D4" [2001] [0] "CITY" none "f.D4" []
      ⟨2001, by decide, by decide⟩⟩

/-! ## C3: resumability of the batch runner -/

theorem fsGet_fsRemove_ne (fs : FS) (p q : String) (h : q ≠ p) :
    fsGet (fsRemove fs p) q = fsGet fs q := by
  induction fs with
  | nil => rfl
  | cons e es ih =>
    by_cases hep : e.1 = p
    · have h1 : (e.1 == q) = false := by
        simp only [beq_eq_false_iff_ne, ne_eq]
        intro hc
        exact h (hc ▸ hep ▸ rfl)
      have h2 : (e.1 == p) = true := by simp [hep]
      rw [fsGet, fsRemove, List.filter_cons, h2]
      simp only [Bool.not_true, Bool.false_eq_true, if_false]
      conv_rhs => rw [fsGet, List.find?_cons, h1]
      exact ih
    · have h2 : (e.1 == p) = false := by simp [hep]
      rw [fsGet, fsRemove, List.filter_cons, h2]
      simp only [Bool.not_false, if_true]
      rw [List.find?_cons]
      conv_rhs => rw [fsGet, List.find?_cons]
      cases heq : e.1 == q with
      | true => rfl
      | false => exact ih

theorem run_help_singlecell_skips (sim : List String → FS → FS) (fs : FS)
    (item : String × List String) (path : String)
    (content : List (List String)) (res : MonthlyData)
    (hpath : item.2.get? 5 = some path)
    (hget : fsGet fs path = some content)
    (hparse : read_monthly_help_output content = some res) :
    run_help_singlecell sim fs item =
      some (fsRemove fs path, 0, (item.1, res)) := by
  rw [run_help_singlecell, hpath]
  simp [hget, hparse]

theorem run_allcells_pre (sim : List String → FS → FS)
    (cells : List (String × List String)) :
    ∀ (fs : FS) (n : ℕ) (out0 : List (String × MonthlyData)),
    (∀ c ∈ cells, ∃ path content res, c.2.get? 5 = some path ∧
       fsGet fs path = some content ∧
       read_monthly_help_output content = some res) →
    List.Pairwise (fun a b => a.2.get? 5 ≠ b.2.get? 5) cells →
    ∃ fs' out, cells.foldlM
        (fun acc item => do
          let r ← run_help_singlecell sim acc.1 item
          pure (r.1, acc.2.1 + r.2.1, acc.2.2 ++ [r.2.2])) (fs, n, out0) =
      some (fs', n, out0 ++ out) ∧ out.map (·.1) = cells.map (·.1) := by
  induction cells with
  | nil =>
    intro fs n out0 _ _
    exact ⟨fs, [], by simp, rfl⟩
  | cons c cs ih =>
    intro fs n out0 hall hpw
    obtain ⟨path, content, res, hpath, hget, hparse⟩ :=
      hall c (List.mem_cons_self c cs)
    rw [List.pairwise_cons] at hpw
    have hall' : ∀ c' ∈ cs, ∃ path' content' res',
        c'.2.get? 5 = some path' ∧
        fsGet (fsRemove fs path) path' = some content' ∧
        read_monthly_help_output content' = some res' := by
      intro c' hc'
      obtain ⟨path', content', res', hp', hg', hr'⟩ :=
        hall c' (List.mem_cons_of_mem c hc')
      refine ⟨path', content', res', hp', ?_, hr'⟩
      rw [fsGet_fsRemove_ne fs path path' ?_, hg']
      intro hcontra
      exact hpw.1 c' hc' (by rw [hpath, hp', hcontra])
    obtain ⟨fs', out', hfold, hnames⟩ :=
      ih (fsRemove fs path) n (out0 ++ [(c.1, res)]) hall' hpw.2
    refine ⟨fs', (c.1, res) :: out', ?_, by simp [hnames]⟩
    rw [List.foldlM_cons,
      run_help_singlecell_skips sim fs c path content res hpath hget hparse]
    show cs.foldlM _ (fsRemove fs path, n + 0, out0 ++ [(c.1, res)]) = _
    rw [Nat.add_zero, hfold]
    simp

/-- **C3**.  A cell whose expected output file (element 5 of its parameter
tuple) already exists is processed without invoking the simulator: the
existing file is parsed, deleted, and the parsed table returned.  Hence a
batch over cells whose output files all pre-exist (at pairwise distinct
paths) produces a result for every cell with zero simulator
invocations. -/
theorem C3_resume_skips_simulator :
    (∀ (sim : List String → FS → FS) (fs : FS)
      (item : String × List String) (path : String)
      (content : List (List String)) (res : MonthlyData),
      item.2.get? 5 = some path →
      fsGet fs path = some content →
      read_monthly_help_output content = some res →
      run_help_singlecell sim fs item =
        some (fsRemove fs path, 0, (item.1, res))) ∧
    (∀ (sim : List String → FS → FS) (fs : FS)
      (cells : List (String × List String)),
      (∀ c ∈ cells, ∃ path content res, c.2.get? 5 = some path ∧
        fsGet fs path = some content ∧
        read_monthly_help_output content = some res) →
      List.Pairwise (fun a b => a.2.get? 5 ≠ b.2.get? 5) cells →
      ∃ fs' out, run_help_allcells sim fs cells = some (fs', 0, out) ∧
        out.map (·.1) = cells.map (·.1) ∧ out.length = cells.length) := by
  constructor
  · exact fun sim fs item path content res h1 h2 h3 =>
      run_help_singlecell_skips sim fs item path content res h1 h2 h3
  · intro sim fs cells hall hpw
    obtain ⟨fs', out, hfold, hnames⟩ := run_allcells_pre sim cells fs 0 [] hall hpw
    refine ⟨fs', out, ?_, hnames, ?_⟩
    · rw [run_help_allcells]
      rw [hfold]
      simp
    · rw [← List.length_map out (·.1), hnames, List.length_map]

/-- Witness for C3 at a two-cell batch with both output files
pre-existing. -/
theorem C3_resume_skips_simulator_witness :
    ((("c1", ["a", "b", "c", "d", "e", "out1"]) :
        String × List String).2.get? 5 = some "out1" ∧
      fsGet fsEx "out1" = some mFileEx ∧
      read_monthly_help_output mFileEx = some mDataEx ∧
      run_help_singlecell (fun _ fs => fs) fsEx
        ("c1", ["a", "b", "c", "d", "e", "out1"]) =
        some (fsRemove fsEx "out1", 0, ("c1", mDataEx))) ∧
    (∃ fs' out, run_help_allcells (fun _ fs => fs) fsEx cellsEx =
        some (fs', 0, out) ∧
      out.map (·.1) = cellsEx.map (·.1) ∧ out.length = cellsEx.length) :=
  ⟨⟨rfl, rfl, by decide,
    C3_resume_skips_simulator.1 (fun _ fs => fs) fsEx
      ("c1", ["a", "b", "c", "d", "e", "out1"]) "out1" mFileEx mDataEx
      rfl rfl (by decide)⟩,
    C3_resume_skips_simulator.2 (fun _ fs => fs) fsEx cellsEx
      (by
        intro c hc
        rcases List.mem_cons.mp hc with rfl | hc2
        · exact ⟨"out1", mFileEx, mDataEx, rfl, rfl, by decide⟩
        · rcases List.mem_cons.mp hc2 with rfl | hc3
          · exact ⟨"out2", mFileEx, mDataEx, rfl, rfl, by decide⟩
          · simp at hc3)
      (by decide)⟩

/-! ## Monthly parser step lemmas -/

theorem monthlyLoop_end0 (v : MVars) (a : MAccs) :
    monthlyLoop [] false v a = some a := by
  rw [monthlyLoop]

theorem monthlyLoop_end1 (r : List String) (v : MVars) (a : MAccs) :
    monthlyLoop [r] false v a = some a := by
  rw [monthlyLoop]

theorem monthlyLoop_marker (m : String) (yr : ℤ) (r0 : List String)
    (rs : List (List String)) (v : MVars) (a : MAccs)
    (hm : strContains m "MONTHLY TOTALS" = true)
    (hyr : ((pySplit m).getLast?.bind parsePyInt) = some yr) :
    monthlyLoop ([m] :: r0 :: rs) false v a =
      monthlyLoop (r0 :: rs) true
        { v with subrunoff := none, percol := none }
        { a with years := a.years ++ [yr] } := by
  obtain ⟨tok, h1, h2⟩ := Option.bind_eq_some.mp hyr
  rw [monthlyLoop] <;> simp [hm, h1, h2]

theorem monthlyLoop_block_pair (x b : String) (rest : List (List String))
    (v : MVars) (a : MAccs)
    (hst : strContains x "**********" = false) :
    monthlyLoop ([x] :: [b] :: rest) true v a =
      monthlyLoop ([b] :: rest) true (stepPair v x b) a := by
  conv_lhs => rw [monthlyLoop]
  simp [hst]

theorem monthlyLoop_block_skipempty (rest : List (List String))
    (v : MVars) (a : MAccs) :
    monthlyLoop ([] :: rest) true v a = monthlyLoop rest true v a :=
  monthlyLoop.eq_6 v a rest

theorem monthlyLoop_block_next_empty (x : String) (rest : List (List String))
    (v : MVars) (a : MAccs)
    (hst : strContains x "**********" = false) :
    monthlyLoop ([x] :: [] :: rest) true v a =
      monthlyLoop ([] :: rest) true v a := by
  conv_lhs => rw [monthlyLoop]
  simp [hst]

theorem monthlyLoop_stars (s : String) (rest : List (List String))
    (v : MVars) (a a' : MAccs)
    (hs : strContains s "**********" = true)
    (hclose : closeBlock v a = some a') :
    monthlyLoop ([s] :: rest) true v a = monthlyLoop rest false v a' := by
  cases rest with
  | nil => rw [monthlyLoop.eq_7]; simp [hs, hclose]
  | cons r rs =>
    cases r with
    | nil => rw [monthlyLoop.eq_8]; simp [hs, hclose]
    | cons s2 ss2 =>
      conv_lhs => rw [monthlyLoop]
      simp [hs, hclose]

theorem stepPair_nokw (v : MVars) (x b : String) (h : noMonthlyKw x) :
    stepPair v x b = v := by
  obtain ⟨h1, h2, h3, h4, h5⟩ := h
  rw [stepPair]
  simp [h1, h2, h3, h4, h5]

theorem monthlyLoop_skipline (b : String) (rest : List (List String))
    (v : MVars) (a : MAccs)
    (hst : strContains b "**********" = false)
    (hkw : noMonthlyKw b) (hrest : rest ≠ []) :
    monthlyLoop ([b] :: rest) true v a = monthlyLoop rest true v a := by
  cases rest with
  | nil => exact absurd rfl hrest
  | cons t0 ts =>
    cases t0 with
    | nil => exact monthlyLoop_block_next_empty b ts v a hst
    | cons s ss =>
      conv_lhs => rw [monthlyLoop]
      simp only [hst, Bool.false_eq_true, if_false]
      rw [stepPair_nokw v b s hkw]

theorem stepPair_perc (v : MVars) (x b : String)
    (h1 : strContains x "PRECIPITATION" = false)
    (h2 : strContains x "RUNOFF" = false)
    (h3 : strContains x "EVAPOTRANSPIRATION" = false)
    (h4 : strContains x "LATERAL DRAINAGE" = false)
    (h5 : strContains x "PERCOLATION" = true) :
    stepPair v x b = { v with
      percol := if v.percol = none then some (pairToks x b) else v.percol
      rechg := some (pairToks x b) } := by
  rw [stepPair]
  simp [h1, h2, h3, h4, h5]

theorem stepPair_lat (v : MVars) (x b : String)
    (h1 : strContains x "PRECIPITATION" = false)
    (h2 : strContains x "RUNOFF" = false)
    (h3 : strContains x "EVAPOTRANSPIRATION" = false)
    (h4 : strContains x "LATERAL DRAINAGE" = true)
    (h5 : strContains x "PERCOLATION" = false) :
    stepPair v x b = if v.subrunoff = none then
      { v with subrunoff := some (pairToks x b) } else v := by
  rw [stepPair]
  by_cases hsub : v.subrunoff = none
  · simp [h1, h2, h3, h4, h5, hsub]
  · simp [h1, h2, h3, h4, h5, hsub]

theorem monthlyLoop_stars_none (s : String) (rest : List (List String))
    (v : MVars) (a : MAccs)
    (hs : strContains s "**********" = true)
    (hclose : closeBlock v a = none) :
    monthlyLoop ([s] :: rest) true v a = none := by
  cases rest with
  | nil => rw [monthlyLoop.eq_7]; simp [hs, hclose]
  | cons r rs =>
    cases r with
    | nil => rw [monthlyLoop.eq_8]; simp [hs, hclose]
    | cons s2 ss2 =>
      conv_lhs => rw [monthlyLoop]
      simp [hs, hclose]

theorem stepPair_precip (v : MVars) (x b : String)
    (h : strContains x "PRECIPITATION" = true) :
    stepPair v x b = { v with precip := some (pairToks x b) } := by
  rw [stepPair]
  simp [h]

theorem stepPair_runoff (v : MVars) (x b : String)
    (h1 : strContains x "PRECIPITATION" = false)
    (h2 : strContains x "RUNOFF" = true) :
    stepPair v x b = { v with runoff := some (pairToks x b) } := by
  rw [stepPair]
  simp [h1, h2]

theorem stepPair_evapo (v : MVars) (x b : String)
    (h1 : strContains x "PRECIPITATION" = false)
    (h2 : strContains x "RUNOFF" = false)
    (h3 : strContains x "EVAPOTRANSPIRATION" = true) :
    stepPair v x b = { v with evapo := some (pairToks x b) } := by
  rw [stepPair]
  simp [h1, h2, h3]

/-! ## Traversing a block's pair lines -/

theorem monthlyLoop_pairs (pairs : List (String × String))
    (tail : List (List String)) (v : MVars) (a : MAccs)
    (hallA : ∀ p ∈ pairs, strContains p.1 "**********" = false)
    (hallB : ∀ p ∈ pairs,
      strContains p.2 "**********" = false ∧ noMonthlyKw p.2)
    (htail : tail ≠ []) :
    monthlyLoop (pairRows pairs ++ tail) true v a =
      monthlyLoop tail true
        (pairs.foldl (fun w p => stepPair w p.1 p.2) v) a := by
  induction pairs generalizing v with
  | nil => simp [pairRows]
  | cons p ps ih =>
    have hshape : pairRows (p :: ps) ++ tail =
        [p.1] :: [p.2] :: (pairRows ps ++ tail) := by
      simp [pairRows]
    rw [hshape,
      monthlyLoop_block_pair p.1 p.2 _ v a
        (hallA p (List.mem_cons_self p ps))]
    have hrest : pairRows ps ++ tail ≠ [] := by
      intro hc
      exact htail (List.append_eq_nil.mp hc).2
    rw [monthlyLoop_skipline p.2 _ _ a
      (hallB p (List.mem_cons_self p ps)).1
      (hallB p (List.mem_cons_self p ps)).2 hrest]
    rw [ih (stepPair v p.1 p.2)
      (fun q hq => hallA q (List.mem_cons_of_mem p hq))
      (fun q hq => hallB q (List.mem_cons_of_mem p hq))]
    rw [List.foldl_cons]

/-! ## Folding PERCOLATION and LATERAL DRAINAGE pair runs -/

theorem percFold_keep (qs : List (String × String)) (v : MVars)
    (t : List String) (ht : v.percol = some t)
    (h : ∀ q ∈ qs, isPercPair q) :
    (qs.foldl (fun w q => stepPair w q.1 q.2) v).precip = v.precip ∧
    (qs.foldl (fun w q => stepPair w q.1 q.2) v).runoff = v.runoff ∧
    (qs.foldl (fun w q => stepPair w q.1 q.2) v).evapo = v.evapo ∧
    (qs.foldl (fun w q => stepPair w q.1 q.2) v).subrunoff = v.subrunoff ∧
    (qs.foldl (fun w q => stepPair w q.1 q.2) v).percol = some t ∧
    (qs.foldl (fun w q => stepPair w q.1 q.2) v).rechg =
      qs.getLast?.elim v.rechg (fun q => some (pairToks q.1 q.2)) := by
  induction qs generalizing v with
  | nil => exact ⟨rfl, rfl, rfl, rfl, ht, rfl⟩
  | cons q qs ih =>
    obtain ⟨-, hq2, hq3, hq4, hq5, hq6, -, -⟩ := h q (List.mem_cons_self q qs)
    rw [List.foldl_cons, stepPair_perc v q.1 q.2 hq2 hq3 hq4 hq5 hq6]
    rw [if_neg (by rw [ht]; exact fun hc => Option.noConfusion hc)]
    have := ih { v with percol := v.percol, rechg := some (pairToks q.1 q.2) }
      ht (fun u hu => h u (List.mem_cons_of_mem q hu))
    obtain ⟨i1, i2, i3, i4, i5, i6⟩ := this
    refine ⟨i1, i2, i3, i4, i5, ?_⟩
    rw [i6]
    cases qs with
    | nil => rfl
    | cons q2 qs2 =>
      rw [List.getLast?_cons_cons]
      obtain ⟨ql, hql⟩ : ∃ ql, (q2 :: qs2).getLast? = some ql := by
        cases hq' : (q2 :: qs2).getLast? with
        | none => exact absurd (List.getLast?_eq_none_iff.mp hq') (by simp)
        | some ql => exact ⟨ql, rfl⟩
      rw [hql]
      rfl

theorem percFold_start (q0 : String × String) (qs : List (String × String))
    (v : MVars) (hv : v.percol = none)
    (h : ∀ q ∈ q0 :: qs, isPercPair q) :
    ((q0 :: qs).foldl (fun w q => stepPair w q.1 q.2) v).precip = v.precip ∧
    ((q0 :: qs).foldl (fun w q => stepPair w q.1 q.2) v).runoff = v.runoff ∧
    ((q0 :: qs).foldl (fun w q => stepPair w q.1 q.2) v).evapo = v.evapo ∧
    ((q0 :: qs).foldl (fun w q => stepPair w q.1 q.2) v).subrunoff =
      v.subrunoff ∧
    ((q0 :: qs).foldl (fun w q => stepPair w q.1 q.2) v).percol =
      some (pairToks q0.1 q0.2) ∧
    ((q0 :: qs).foldl (fun w q => stepPair w q.1 q.2) v).rechg =
      ((q0 :: qs).getLast?).elim v.rechg
        (fun q => some (pairToks q.1 q.2)) := by
  obtain ⟨-, hq2, hq3, hq4, hq5, hq6, -, -⟩ := h q0 (List.mem_cons_self q0 qs)
  rw [List.foldl_cons, stepPair_perc v q0.1 q0.2 hq2 hq3 hq4 hq5 hq6,
    if_pos hv]
  have := percFold_keep qs
    { v with percol := some (pairToks q0.1 q0.2)
             rechg := some (pairToks q0.1 q0.2) }
    (pairToks q0.1 q0.2) rfl (fun u hu => h u (List.mem_cons_of_mem q0 hu))
  obtain ⟨i1, i2, i3, i4, i5, i6⟩ := this
  refine ⟨i1, i2, i3, i4, i5, ?_⟩
  rw [i6]
  cases qs with
  | nil => rfl
  | cons q2 qs2 =>
    rw [List.getLast?_cons_cons]
    obtain ⟨ql, hql⟩ : ∃ ql, (q2 :: qs2).getLast? = some ql := by
      cases hq' : (q2 :: qs2).getLast? with
      | none => exact absurd (List.getLast?_eq_none_iff.mp hq') (by simp)
      | some ql => exact ⟨ql, rfl⟩
    rw [hql]
    rfl

theorem latFold_keep (qs : List (String × String)) (v : MVars)
    (t : List String) (ht : v.subrunoff = some t)
    (h : ∀ q ∈ qs, isLatPair q) :
    qs.foldl (fun w q => stepPair w q.1 q.2) v = v := by
  induction qs with
  | nil => rfl
  | cons q qs ih =>
    obtain ⟨-, hq2, hq3, hq4, hq5, hq6, -, -⟩ := h q (List.mem_cons_self q qs)
    rw [List.foldl_cons, stepPair_lat v q.1 q.2 hq2 hq3 hq4 hq5 hq6,
      if_neg (by rw [ht]; exact fun hc => Option.noConfusion hc)]
    exact ih (fun u hu => h u (List.mem_cons_of_mem q hu))

theorem latFold_start (q0 : String × String) (qs : List (String × String))
    (v : MVars) (hv : v.subrunoff = none)
    (h : ∀ q ∈ q0 :: qs, isLatPair q) :
    (q0 :: qs).foldl (fun w q => stepPair w q.1 q.2) v =
      { v with subrunoff := some (pairToks q0.1 q0.2) } := by
  obtain ⟨-, hq2, hq3, hq4, hq5, hq6, -, -⟩ := h q0 (List.mem_cons_self q0 qs)
  rw [List.foldl_cons, stepPair_lat v q0.1 q0.2 hq2 hq3 hq4 hq5 hq6,
    if_pos hv]
  exact latFold_keep qs _ (pairToks q0.1 q0.2) rfl
    (fun u hu => h u (List.mem_cons_of_mem q0 hu))

/-! ## A complete single-block monthly file -/

theorem vstack_single (r : List ℚ) : vstack [r] = some [r] := by
  simp [vstack]

theorem monthlyLoop_one_block (mline : String)
    (pairs : List (String × String)) (yr : ℤ)
    (hm : strContains mline "MONTHLY TOTALS" = true)
    (hyr : ((pySplit mline).getLast?.bind parsePyInt) = some yr)
    (hallA : ∀ p ∈ pairs, strContains p.1 "**********" = false)
    (hallB : ∀ p ∈ pairs,
      strContains p.2 "**********" = false ∧ noMonthlyKw p.2) :
    monthlyLoop ([[mline]] ++ pairRows pairs ++ [["**********"]]) false
      ⟨none, none, none, none, none, none⟩ ⟨[], [], [], [], [], [], []⟩ =
    closeBlock (pairs.foldl (fun w p => stepPair w p.1 p.2)
      ⟨none, none, none, none, none, none⟩)
      ⟨[yr], [], [], [], [], [], []⟩ := by
  have hfile : [[mline]] ++ pairRows pairs ++ [["**********"]] =
      [mline] :: (pairRows pairs ++ [["**********"]]) := by simp
  rw [hfile]
  cases hshape : pairRows pairs ++ [["**********"]] with
  | nil => exact absurd (List.append_eq_nil.mp hshape).2 (by simp)
  | cons r0 rs =>
    rw [monthlyLoop_marker mline yr r0 rs _ _ hm hyr]
    rw [← hshape]
    have hv0 : ({ (⟨none, none, none, none, none, none⟩ : MVars) with
        subrunoff := none, percol := none }) =
      (⟨none, none, none, none, none, none⟩ : MVars) := rfl
    have hacc : ({ (⟨[], [], [], [], [], [], []⟩ : MAccs) with
        years := (⟨[], [], [], [], [], [], []⟩ : MAccs).years ++ [yr] }) =
      (⟨[yr], [], [], [], [], [], []⟩ : MAccs) := rfl
    rw [hv0, hacc]
    rw [monthlyLoop_pairs pairs [["**********"]] _ _ hallA hallB (by simp)]
    cases hclose : closeBlock (pairs.foldl (fun w p => stepPair w p.1 p.2)
        ⟨none, none, none, none, none, none⟩)
        ⟨[yr], [], [], [], [], [], []⟩ with
    | none =>
      exact monthlyLoop_stars_none "**********" [] _ _ (by decide) hclose
    | some a' =>
      rw [monthlyLoop_stars "**********" [] _ _ a' (by decide) hclose]
      exact monthlyLoop_end0 _ a'

theorem takeLast_length_of_le (n : ℕ) (l : List α) (h : n ≤ l.length) :
    (takeLast n l).length = n := by
  rw [takeLast, List.length_drop]
  omega

/-- **C4**.  In a monthly-report year block holding PRECIPITATION, RUNOFF
and EVAPOTRANSPIRATION pairs followed by any nonempty run of PERCOLATION
pairs, the parsed table's `percolation` row is the first PERCOLATION
pair's values, while `recharge` is overwritten by every occurrence and
ends up equal to the 12 values of the last PERCOLATION pair of the
block. -/
theorem C4_monthly_percolation_first_recharge_last
    (mline pl pl2 rl rl2 el el2 : String)
    (percPairs : List (String × String)) (q0 qlast : String × String)
    (yr : ℤ) (pv rv ev cv gv : List ℚ)
    (hm : strContains mline "MONTHLY TOTALS" = true)
    (hyr : ((pySplit mline).getLast?.bind parsePyInt) = some yr)
    (hplA : strContains pl "**********" = false)
    (hplB : strContains pl "PRECIPITATION" = true)
    (hpl2 : strContains pl2 "**********" = false ∧ noMonthlyKw pl2)
    (hrlA : strContains rl "**********" = false)
    (hrlB : strContains rl "PRECIPITATION" = false)
    (hrlC : strContains rl "RUNOFF" = true)
    (hrl2 : strContains rl2 "**********" = false ∧ noMonthlyKw rl2)
    (helA : strContains el "**********" = false)
    (helB : strContains el "PRECIPITATION" = false)
    (helC : strContains el "RUNOFF" = false)
    (helD : strContains el "EVAPOTRANSPIRATION" = true)
    (hel2 : strContains el2 "**********" = false ∧ noMonthlyKw el2)
    (hperc : ∀ q ∈ percPairs, isPercPair q)
    (hhead : percPairs.head? = some q0)
    (hlastq : percPairs.getLast? = some qlast)
    (hP : omap parsePyFloat (pairToks pl pl2) = some pv)
    (hR : omap parsePyFloat (pairToks rl rl2) = some rv)
    (hE : omap parsePyFloat (pairToks el el2) = some ev)
    (hC : omap parsePyFloat (pairToks q0.1 q0.2) = some cv)
    (hG : omap parsePyFloat (pairToks qlast.1 qlast.2) = some gv)
    (h6a : 6 ≤ (pySplit qlast.1).length)
    (h6b : 6 ≤ (pySplit qlast.2).length) :
    ∃ d, read_monthly_help_output ([[mline]] ++
        pairRows ([(pl, pl2), (rl, rl2), (el, el2)] ++ percPairs) ++
        [["**********"]]) = some d ∧
      d.percolation = [cv] ∧ d.recharge = [gv] ∧ gv.length = 12 := by
  obtain ⟨qrest, hps⟩ : ∃ qrest, percPairs = q0 :: qrest := by
    cases percPairs with
    | nil => simp at hhead
    | cons a b =>
      rw [List.head?_cons, Option.some_inj] at hhead
      exact ⟨b, by rw [hhead]⟩
  subst hps
  have hallA : ∀ p ∈ [(pl, pl2), (rl, rl2), (el, el2)] ++ q0 :: qrest,
      strContains p.1 "**********" = false := by
    intro p hp
    rcases List.mem_append.mp hp with h3 | hq
    · simp only [List.mem_cons, List.not_mem_nil, or_false] at h3
      rcases h3 with rfl | rfl | rfl
      exacts [hplA, hrlA, helA]
    · exact (hperc p hq).1
  have hallB : ∀ p ∈ [(pl, pl2), (rl, rl2), (el, el2)] ++ q0 :: qrest,
      strContains p.2 "**********" = false ∧ noMonthlyKw p.2 := by
    intro p hp
    rcases List.mem_append.mp hp with h3 | hq
    · simp only [List.mem_cons, List.not_mem_nil, or_false] at h3
      rcases h3 with rfl | rfl | rfl
      exacts [hpl2, hrl2, hel2]
    · exact ⟨(hperc p hq).2.2.2.2.2.2.1, (hperc p hq).2.2.2.2.2.2.2⟩
  have hOB := monthlyLoop_one_block mline
    ([(pl, pl2), (rl, rl2), (el, el2)] ++ q0 :: qrest) yr hm hyr hallA hallB
  have hbase : [(pl, pl2), (rl, rl2), (el, el2)].foldl
      (fun w p => stepPair w p.1 p.2)
      (⟨none, none, none, none, none, none⟩ : MVars) =
      ⟨some (pairToks pl pl2), some (pairToks rl rl2),
        some (pairToks el el2), none, none, none⟩ := by
    rw [List.foldl_cons, stepPair_precip _ _ _ hplB,
      List.foldl_cons, stepPair_runoff _ _ _ hrlB hrlC,
      List.foldl_cons, stepPair_evapo _ _ _ helB helC helD,
      List.foldl_nil]
  have hfoldall : ([(pl, pl2), (rl, rl2), (el, el2)] ++ q0 :: qrest).foldl
      (fun w p => stepPair w p.1 p.2)
      (⟨none, none, none, none, none, none⟩ : MVars) =
      (q0 :: qrest).foldl (fun w p => stepPair w p.1 p.2)
        ⟨some (pairToks pl pl2), some (pairToks rl rl2),
          some (pairToks el el2), none, none, none⟩ := by
    rw [List.foldl_append, hbase]
  obtain ⟨f1, f2, f3, f4, f5, f6⟩ := percFold_start q0 qrest
    ⟨some (pairToks pl pl2), some (pairToks rl rl2),
      some (pairToks el el2), none, none, none⟩ rfl hperc
  rw [hlastq] at f6
  have hclose : closeBlock (([(pl, pl2), (rl, rl2), (el, el2)] ++
      q0 :: qrest).foldl (fun w p => stepPair w p.1 p.2)
      ⟨none, none, none, none, none, none⟩)
      ⟨[yr], [], [], [], [], [], []⟩ =
      some ⟨[yr], [pv], [rv], [ev], [List.replicate 12 0], [cv], [gv]⟩ := by
    rw [hfoldall, closeBlock]
    rw [f1, f2, f3, f4, f5, f6]
    simp [hP, hR, hE, hC, hG]
  refine ⟨⟨[yr % 65536], [pv], [rv], [ev], [List.replicate 12 0], [cv], [gv]⟩,
    ?_, rfl, rfl, ?_⟩
  · rw [read_monthly_help_output, hOB, hclose]
    simp [vstack_single]
  · rw [omap_length _ _ _ hG, pairToks, List.length_append,
      takeLast_length_of_le 6 _ h6a, takeLast_length_of_le 6 _ h6b]

/-- **C5**.  In a monthly-report year block, only the first LATERAL
DRAINAGE pair populates `sub-runoff` (later occurrences in the block are
ignored), and when the block contains no such line the `sub-runoff` row
is a 12-element zero vector. -/
theorem C5_monthly_lateral_first_only
    (mline pl pl2 rl rl2 el el2 : String)
    (latPairs percPairs : List (String × String)) (q0 qlast : String × String)
    (yr : ℤ) (pv rv ev cv gv : List ℚ)
    (hm : strContains mline "MONTHLY TOTALS" = true)
    (hyr : ((pySplit mline).getLast?.bind parsePyInt) = some yr)
    (hplA : strContains pl "**********" = false)
    (hplB : strContains pl "PRECIPITATION" = true)
    (hpl2 : strContains pl2 "**********" = false ∧ noMonthlyKw pl2)
    (hrlA : strContains rl "**********" = false)
    (hrlB : strContains rl "PRECIPITATION" = false)
    (hrlC : strContains rl "RUNOFF" = true)
    (hrl2 : strContains rl2 "**********" = false ∧ noMonthlyKw rl2)
    (helA : strContains el "**********" = false)
    (helB : strContains el "PRECIPITATION" = false)
    (helC : strContains el "RUNOFF" = false)
    (helD : strContains el "EVAPOTRANSPIRATION" = true)
    (hel2 : strContains el2 "**********" = false ∧ noMonthlyKw el2)
    (hlat : ∀ q ∈ latPairs, isLatPair q)
    (hperc : ∀ q ∈ percPairs, isPercPair q)
    (hhead : percPairs.head? = some q0)
    (hlastq : percPairs.getLast? = some qlast)
    (hP : omap parsePyFloat (pairToks pl pl2) = some pv)
    (hR : omap parsePyFloat (pairToks rl rl2) = some rv)
    (hE : omap parsePyFloat (pairToks el el2) = some ev)
    (hC : omap parsePyFloat (pairToks q0.1 q0.2) = some cv)
    (hG : omap parsePyFloat (pairToks qlast.1 qlast.2) = some gv) :
    (latPairs = [] →
      ∃ d, read_monthly_help_output ([[mline]] ++
          pairRows ([(pl, pl2), (rl, rl2), (el, el2)] ++ latPairs ++
            percPairs) ++ [["**********"]]) = some d ∧
        d.subrunoff = [List.replicate 12 0]) ∧
    (∀ l0 ls sv, latPairs = l0 :: ls →
      omap parsePyFloat (pairToks l0.1 l0.2) = some sv →
      ∃ d, read_monthly_help_output ([[mline]] ++
          pairRows ([(pl, pl2), (rl, rl2), (el, el2)] ++ latPairs ++
            percPairs) ++ [["**********"]]) = some d ∧
        d.subrunoff = [sv]) := by
  obtain ⟨qrest, hps⟩ : ∃ qrest, percPairs = q0 :: qrest := by
    cases percPairs with
    | nil => simp at hhead
    | cons a b =>
      rw [List.head?_cons, Option.some_inj] at hhead
      exact ⟨b, by rw [hhead]⟩
  subst hps
  have hallA : ∀ p ∈ [(pl, pl2), (rl, rl2), (el, el2)] ++ latPairs ++
      q0 :: qrest, strContains p.1 "**********" = false := by
    intro p hp
    rcases List.mem_append.mp hp with hq | hq2
    · rcases List.mem_append.mp hq with h3 | hl
      · simp only [List.mem_cons, List.not_mem_nil, or_false] at h3
        rcases h3 with rfl | rfl | rfl
        exacts [hplA, hrlA, helA]
      · exact (hlat p hl).1
    · exact (hperc p hq2).1
  have hallB : ∀ p ∈ [(pl, pl2), (rl, rl2), (el, el2)] ++ latPairs ++
      q0 :: qrest, strContains p.2 "**********" = false ∧ noMonthlyKw p.2 := by
    intro p hp
    rcases List.mem_append.mp hp with hq | hq2
    · rcases List.mem_append.mp hq with h3 | hl
      · simp only [List.mem_cons, List.not_mem_nil, or_false] at h3
        rcases h3 with rfl | rfl | rfl
        exacts [hpl2, hrl2, hel2]
      · exact ⟨(hlat p hl).2.2.2.2.2.2.1, (hlat p hl).2.2.2.2.2.2.2⟩
    · exact ⟨(hperc p hq2).2.2.2.2.2.2.1, (hperc p hq2).2.2.2.2.2.2.2⟩
  have hOB := monthlyLoop_one_block mline
    ([(pl, pl2), (rl, rl2), (el, el2)] ++ latPairs ++ q0 :: qrest) yr
    hm hyr hallA hallB
  have hbase : [(pl, pl2), (rl, rl2), (el, el2)].foldl
      (fun w p => stepPair w p.1 p.2)
      (⟨none, none, none, none, none, none⟩ : MVars) =
      ⟨some (pairToks pl pl2), some (pairToks rl rl2),
        some (pairToks el el2), none, none, none⟩ := by
    rw [List.foldl_cons, stepPair_precip _ _ _ hplB,
      List.foldl_cons, stepPair_runoff _ _ _ hrlB hrlC,
      List.foldl_cons, stepPair_evapo _ _ _ helB helC helD,
      List.foldl_nil]
  constructor
  · intro hnil
    subst hnil
    have hfoldall : ([(pl, pl2), (rl, rl2), (el, el2)] ++
        ([] : List (String × String)) ++
        q0 :: qrest).foldl (fun w p => stepPair w p.1 p.2)
        (⟨none, none, none, none, none, none⟩ : MVars) =
        (q0 :: qrest).foldl (fun w p => stepPair w p.1 p.2)
          ⟨some (pairToks pl pl2), some (pairToks rl rl2),
            some (pairToks el el2), none, none, none⟩ := by
      rw [List.foldl_append, List.foldl_append, hbase, List.foldl_nil]
    obtain ⟨f1, f2, f3, f4, f5, f6⟩ := percFold_start q0 qrest
      ⟨some (pairToks pl pl2), some (pairToks rl rl2),
        some (pairToks el el2), none, none, none⟩ rfl hperc
    rw [hlastq] at f6
    have hclose : closeBlock (([(pl, pl2), (rl, rl2), (el, el2)] ++
        ([] : List (String × String)) ++
        q0 :: qrest).foldl (fun w p => stepPair w p.1 p.2)
        ⟨none, none, none, none, none, none⟩)
        ⟨[yr], [], [], [], [], [], []⟩ =
        some ⟨[yr], [pv], [rv], [ev], [List.replicate 12 0], [cv], [gv]⟩ := by
      rw [hfoldall, closeBlock]
      rw [f1, f2, f3, f4, f5, f6]
      simp [hP, hR, hE, hC, hG]
    exact ⟨⟨[yr % 65536], [pv], [rv], [ev], [List.replicate 12 0], [cv],
        [gv]⟩,
      by rw [read_monthly_help_output, hOB, hclose]; simp [vstack_single],
      rfl⟩
  · intro l0 ls sv hcons hsv
    subst hcons
    have hfoldall : ([(pl, pl2), (rl, rl2), (el, el2)] ++ (l0 :: ls) ++
        q0 :: qrest).foldl (fun w p => stepPair w p.1 p.2)
        (⟨none, none, none, none, none, none⟩ : MVars) =
        (q0 :: qrest).foldl (fun w p => stepPair w p.1 p.2)
          ⟨some (pairToks pl pl2), some (pairToks rl rl2),
            some (pairToks el el2), none,
            some (pairToks l0.1 l0.2), none⟩ := by
      rw [List.foldl_append, List.foldl_append, hbase,
        latFold_start l0 ls _ rfl hlat]
    obtain ⟨f1, f2, f3, f4, f5, f6⟩ := percFold_start q0 qrest
      ⟨some (pairToks pl pl2), some (pairToks rl rl2),
        some (pairToks el el2), none, some (pairToks l0.1 l0.2), none⟩
      rfl hperc
    rw [hlastq] at f6
    have hclose : closeBlock (([(pl, pl2), (rl, rl2), (el, el2)] ++
        (l0 :: ls) ++ q0 :: qrest).foldl (fun w p => stepPair w p.1 p.2)
        ⟨none, none, none, none, none, none⟩)
        ⟨[yr], [], [], [], [], [], []⟩ =
        some ⟨[yr], [pv], [rv], [ev], [sv], [cv], [gv]⟩ := by
      rw [hfoldall, closeBlock]
      rw [f1, f2, f3, f4, f5, f6]
      simp [hP, hR, hE, hC, hG, hsv]
    exact ⟨⟨[yr % 65536], [pv], [rv], [ev], [sv], [cv], [gv]⟩,
      by rw [read_monthly_help_output, hOB, hclose]; simp [vstack_single],
      rfl⟩

/-- Witness for C4: a concrete block with two PERCOLATION pairs — the
parsed `percolation` row holds the first pair's 3s, `recharge` the last
pair's 4s. -/
theorem C4_monthly_percolation_first_recharge_last_witness :
    (strContains "MONTHLY TOTALS  FOR YEAR 2001" "MONTHLY TOTALS" = true ∧
      (∀ q ∈ c4percPairs, isPercPair q) ∧
      omap parsePyFloat (pairToks "  PERCOLATION X  3 3 3 3 3 3"
        " 3 3 3 3 3 3") = some (List.replicate 12 3) ∧
      omap parsePyFloat (pairToks "  PERCOLATION Y  4 4 4 4 4 4"
        " 4 4 4 4 4 4") = some (List.replicate 12 4)) ∧
    (∃ d, read_monthly_help_output ([["MONTHLY TOTALS  FOR YEAR 2001"]] ++
        pairRows (c45basePairs ++ c4percPairs) ++ [["**********"]]) =
        some d ∧
      d.percolation = [List.replicate 12 3] ∧
      d.recharge = [List.replicate 12 4] ∧
      (List.replicate 12 (4 : ℚ)).length = 12) :=
  ⟨⟨by decide, by decide, by decide, by decide⟩,
    C4_monthly_percolation_first_recharge_last
      "MONTHLY TOTALS  FOR YEAR 2001"
      "  PRECIPITATION  1 2 3 4 5 6" " 7 8 9 10 11 12"
      "  RUNOFF  1 1 1 1 1 1" " 1 1 1 1 1 1"
      "  EVAPOTRANSPIRATION  2 2 2 2 2 2" " 2 2 2 2 2 2"
      c4percPairs
      ("  PERCOLATION X  3 3 3 3 3 3", " 3 3 3 3 3 3")
      ("  PERCOLATION Y  4 4 4 4 4 4", " 4 4 4 4 4 4")
      2001 [1, 2, 3, 4, 5, 6, 7, 8, 9, 10, 11, 12] (List.replicate 12 1)
      (List.replicate 12 2) (List.replicate 12 3) (List.replicate 12 4)
      (by decide) (by decide) (by decide) (by decide) (by decide)
      (by decide) (by decide) (by decide) (by decide) (by decide)
      (by decide) (by decide) (by decide) (by decide) (by decide)
      (by decide) (by decide) (by decide) (by decide) (by decide)
      (by decide) (by decide) (by decide) (by decide)⟩

/-- Witness for C5, both branches: with two LATERAL DRAINAGE pairs only
the first (the 5s) lands in `sub-runoff`; with none, `sub-runoff` is the
zero vector. -/
theorem C5_monthly_lateral_first_only_witness :
    ((∀ q ∈ c5latPairs, isLatPair q) ∧
      omap parsePyFloat (pairToks "  LATERAL DRAINAGE A  5 5 5 5 5 5"
        " 5 5 5 5 5 5") = some (List.replicate 12 5)) ∧
    (∃ d, read_monthly_help_output ([["MONTHLY TOTALS  FOR YEAR 2001"]] ++
        pairRows (c45basePairs ++ c5latPairs ++ c4percPairs) ++
        [["**********"]]) = some d ∧
      d.subrunoff = [List.replicate 12 5]) ∧
    (∃ d, read_monthly_help_output ([["MONTHLY TOTALS  FOR YEAR 2001"]] ++
        pairRows (c45basePairs ++ ([] : List (String × String)) ++
          c4percPairs) ++ [["**********"]]) = some d ∧
      d.subrunoff = [List.replicate 12 0]) :=
  ⟨⟨by decide, by decide⟩,
    (C5_monthly_lateral_first_only
      "MONTHLY TOTALS  FOR YEAR 2001"
      "  PRECIPITATION  1 2 3 4 5 6" " 7 8 9 10 11 12"
      "  RUNOFF  1 1 1 1 1 1" " 1 1 1 1 1 1"
      "  EVAPOTRANSPIRATION  2 2 2 2 2 2" " 2 2 2 2 2 2"
      c5latPairs c4percPairs
      ("  PERCOLATION X  3 3 3 3 3 3", " 3 3 3 3 3 3")
      ("  PERCOLATION Y  4 4 4 4 4 4", " 4 4 4 4 4 4")
      2001 [1, 2, 3, 4, 5, 6, 7, 8, 9, 10, 11, 12] (List.replicate 12 1)
      (List.replicate 12 2) (List.replicate 12 3) (List.replicate 12 4)
      (by decide) (by decide) (by decide) (by decide) (by decide)
      (by decide) (by decide) (by decide) (by decide) (by decide)
      (by decide) (by decide) (by decide) (by decide) (by decide)
      (by decide) (by decide) (by decide) (by decide) (by decide)
      (by decide) (by decide) (by decide)).2
      ("  LATERAL DRAINAGE A  5 5 5 5 5 5", " 5 5 5 5 5 5")
      [("  LATERAL DRAINAGE B  6 6 6 6 6 6", " 6 6 6 6 6 6")]
      (List.replicate 12 5) rfl (by decide),
    (C5_monthly_lateral_first_only
      "MONTHLY TOTALS  FOR YEAR 2001"
      "  PRECIPITATION  1 2 3 4 5 6" " 7 8 9 10 11 12"
      "  RUNOFF  1 1 1 1 1 1" " 1 1 1 1 1 1"
      "  EVAPOTRANSPIRATION  2 2 2 2 2 2" " 2 2 2 2 2 2"
      ([] : List (String × String)) c4percPairs
      ("  PERCOLATION X  3 3 3 3 3 3", " 3 3 3 3 3 3")
      ("  PERCOLATION Y  4 4 4 4 4 4", " 4 4 4 4 4 4")
      2001 [1, 2, 3, 4, 5, 6, 7, 8, 9, 10, 11, 12] (List.replicate 12 1)
      (List.replicate 12 2) (List.replicate 12 3) (List.replicate 12 4)
      (by decide) (by decide) (by decide) (by decide) (by decide)
      (by decide) (by decide) (by decide) (by decide) (by decide)
      (by decide) (by decide) (by decide) (by decide) (by decide)
      (by decide) (by decide) (by decide) (by decide) (by decide)
      (by decide) (by decide) (by decide)).1 rfl⟩

/-! ## The daily parser's year context (C6) -/

theorem obind_some {α β : Type} {o : Option α} {f : α → Option β} {b : β}
    (h : o >>= f = some b) : ∃ a, o = some a ∧ f a = some b := by
  cases o with
  | none => exact Option.noConfusion h
  | some a => exact ⟨a, rfl, h⟩

theorem some_bind {α β : Type} (a : α) (f : α → Option β) :
    (some a >>= f : Option β) = f a := rfl

theorem dailyStep_marker (st : DState) (line : String) (tl : List String)
    (yr : ℤ)
    (h1 : strContains line "TOTAL NUMBER OF LAYERS" = false)
    (h2 : strContains line "TOTAL NUMBER OF SUBPROFILES" = false)
    (h3 : strContains line "DAILY OUTPUT FOR YEAR" = true)
    (hyr : ((pySplit line).getLast? >>= parsePyInt) = some yr) :
    dailyStep st (line :: tl) =
      some { st with yearCtx := some (yr, daysInYear yr) } := by
  rw [dailyStep]
  simp [h1, h2, h3, hyr]

theorem dailyStep_data_mid (st : DState) (line : String) (tl : List String)
    (yr : ℤ) (diy : ℕ) (r : DailyRow)
    (hctx : st.yearCtx = some (yr, diy))
    (hm : noDailyMarker line)
    (hp : parseDailyRow line = some r)
    (hd : r.day ≠ (diy : ℤ)) :
    dailyStep st (line :: tl) =
      some { st with rows := st.rows ++ [(yr, r)] } := by
  obtain ⟨h1, h2, h3⟩ := hm
  rw [dailyStep]
  simp [h1, h2, h3, hctx, hp, hd]

theorem dailyStep_data_last (st : DState) (line : String) (tl : List String)
    (yr : ℤ) (diy : ℕ) (r : DailyRow)
    (hctx : st.yearCtx = some (yr, diy))
    (hm : noDailyMarker line)
    (hp : parseDailyRow line = some r)
    (hd : r.day = (diy : ℤ)) :
    dailyStep st (line :: tl) =
      some { st with rows := st.rows ++ [(yr, r)], yearCtx := none } := by
  obtain ⟨h1, h2, h3⟩ := hm
  rw [dailyStep]
  simp [h1, h2, h3, hctx, hp, hd]

theorem dailyStep_skip (st : DState) (line : String) (tl : List String)
    (hctx : st.yearCtx = none) (hm : noDailyMarker line) :
    dailyStep st (line :: tl) = some st := by
  obtain ⟨h1, h2, h3⟩ := hm
  rw [dailyStep]
  simp [h1, h2, h3, hctx]

/-- Folding the daily step over a run of data rows whose days count up to
exactly the active year's day count appends all of them and clears the
year context on the last one. -/
theorem dailyFold_data : ∀ (ls : List String) (rs : List DailyRow)
    (k : ℕ) (yr : ℤ) (diy : ℕ) (st : DState),
    st.yearCtx = some (yr, diy) →
    List.Forall₂
      (fun l r => parseDailyRow l = some r ∧ noDailyMarker l) ls rs →
    (∀ (i : ℕ) (hi : i < rs.length),
      (rs.get ⟨i, hi⟩).day = (k : ℤ) + 1 + i) →
    k + ls.length = diy → ls ≠ [] →
    (ls.map (fun l => [l])).foldlM dailyStep st =
      some ⟨st.nlay, st.nsub, none, st.rows ++ rs.map (fun r => (yr, r))⟩ := by
  intro ls
  induction ls with
  | nil =>
    intro rs k yr diy st hctx hpar hday hlen hne
    exact absurd rfl hne
  | cons l ls ih =>
    intro rs k yr diy st hctx hpar hday hlen hne
    cases rs with
    | nil => exact absurd hpar (by intro hx; cases hx)
    | cons r rs =>
      cases hpar with
      | cons hhead htail =>
        obtain ⟨hp, hm⟩ := hhead
        have hday0 : r.day = (k : ℤ) + 1 := by
          have h0 := hday 0 (by simp)
          simpa using h0
        simp only [List.map_cons, List.foldlM_cons]
        by_cases hnil : ls = []
        · subst hnil
          have hrs : rs = [] := by cases htail; rfl
          subst hrs
          have hdy : r.day = (diy : ℤ) := by
            rw [hday0]
            simp only [List.length_cons, List.length_nil] at hlen
            omega
          rw [dailyStep_data_last st l [] yr diy r hctx hm hp hdy, some_bind]
          simp only [List.map_nil, List.foldlM_nil]
          rfl
        · have hrs : rs ≠ [] := by
            intro hx
            subst hx
            cases htail
            exact hnil rfl
          have hlt : k + 1 < diy := by
            have hge : 1 ≤ ls.length := by
              cases ls with
              | nil => exact absurd rfl hnil
              | cons _ _ => simp
            simp only [List.length_cons] at hlen
            omega
          have hdy : r.day ≠ (diy : ℤ) := by
            rw [hday0]
            intro hcon
            omega
          rw [dailyStep_data_mid st l [] yr diy r hctx hm hp hdy, some_bind]
          have ihr := ih rs (k + 1) yr diy
            { st with rows := st.rows ++ [(yr, r)] } hctx htail
            (fun i hi => by
              have h2 := hday (i + 1) (Nat.succ_lt_succ hi)
              rw [List.get_cons_succ] at h2
              rw [h2]
              push_cast
              ring)
            (by simp only [List.length_cons] at hlen; omega) hnil
          rw [ihr]
          simp [List.append_assoc]

/-- With no active year context, rows holding none of the three markers
leave the daily parser's state untouched. -/
theorem dailyFold_skip : ∀ (ls : List (List String)) (st : DState),
    st.yearCtx = none →
    (∀ row ∈ ls, ∀ l ∈ row.head?.toList, noDailyMarker l) →
    ls.foldlM dailyStep st = some st := by
  intro ls
  induction ls with
  | nil =>
    intro st hctx h
    rfl
  | cons row rest ih =>
    intro st hctx h
    rw [List.foldlM_cons]
    have hstep : dailyStep st row = some st := by
      cases row with
      | nil => rfl
      | cons l tl =>
        exact dailyStep_skip st l tl hctx
          (h (l :: tl) (List.mem_cons_self _ _) l (by simp))
    rw [hstep, some_bind]
    exact ih st hctx (fun q hq => h q (List.mem_cons_of_mem _ hq))

/-- **C6**.  In `read_daily_help_output`, a data row whose day equals the
active year's day count (366 when leap, else 365) clears the year
context, so later lines are only accepted after a new
`DAILY OUTPUT FOR YEAR` marker: a file made of one year marker, 365
valid data rows with days 1..365 for a non-leap year, and any trailing
marker-free section yields exactly the 365 entries tagged with that year
and nothing from the trailing section (even when a trailing line would
itself parse as a valid data row). -/
theorem C6_daily_year_context_cleared
    (mline : String) (yr : ℤ)
    (dataLines : List String) (rs : List DailyRow)
    (trailing : List (List String))
    (hm1 : strContains mline "TOTAL NUMBER OF LAYERS" = false)
    (hm2 : strContains mline "TOTAL NUMBER OF SUBPROFILES" = false)
    (hm3 : strContains mline "DAILY OUTPUT FOR YEAR" = true)
    (hyr : ((pySplit mline).getLast? >>= parsePyInt) = some yr)
    (hleap : pyIsLeap yr = false)
    (hpar : List.Forall₂
      (fun l r => parseDailyRow l = some r ∧ noDailyMarker l) dataLines rs)
    (hday : ∀ (i : ℕ) (hi : i < rs.length),
      (rs.get ⟨i, hi⟩).day = (i : ℤ) + 1)
    (hlen : dataLines.length = 365)
    (htrail : ∀ row ∈ trailing, ∀ l ∈ row.head?.toList, noDailyMarker l) :
    read_daily_help_output
        ([[mline]] ++ dataLines.map (fun l => [l]) ++ trailing) =
      some ⟨List.replicate 365 (yr % 65536),
        rs.map (fun r => r.day % 65536),
        rs.map (·.rain), rs.map (·.ru), rs.map (·.et), rs.map (·.ezone),
        rs.map (·.headfirst), rs.map (·.drainfirst), rs.map (·.leakfirst),
        rs.map (·.leaklast)⟩ := by
  have hdiy : daysInYear yr = 365 := by
    rw [daysInYear, hleap]
    rfl
  have hrsl : rs.length = 365 := by
    have := hpar.length_eq
    omega
  have hfold : (([[mline]] ++ dataLines.map (fun l => [l]) ++
      trailing).foldlM dailyStep (⟨none, none, none, []⟩ : DState)) =
      some ⟨none, none, none, rs.map (fun r => (yr, r))⟩ := by
    rw [List.foldlM_append, List.foldlM_append]
    have h1 : ([[mline]].foldlM dailyStep
        (⟨none, none, none, []⟩ : DState)) =
        some ⟨none, none, some (yr, 365), []⟩ := by
      simp only [List.foldlM_cons, List.foldlM_nil]
      rw [dailyStep_marker _ mline [] yr hm1 hm2 hm3 hyr, hdiy, some_bind]
      rfl
    rw [h1, some_bind]
    have h2 : ((dataLines.map (fun l => [l])).foldlM dailyStep
        (⟨none, none, some (yr, 365), []⟩ : DState)) =
        some ⟨none, none, none, rs.map (fun r => (yr, r))⟩ := by
      have hd := dailyFold_data dataLines rs 0 yr 365
        ⟨none, none, some (yr, 365), []⟩ rfl hpar
        (fun i hi => by rw [hday i hi]; push_cast; ring)
        (by omega) (by intro hx; rw [hx] at hlen; simp at hlen)
      simpa using hd
    rw [h2, some_bind]
    exact dailyFold_skip trailing _ rfl htrail
  rw [read_daily_help_output, hfold, some_bind]
  show some _ = some _
  simp only [List.map_map, Function.comp, Option.some_inj]
  refine DailyData.mk.injEq _ _ _ _ _ _ _ _ _ _ _ _ _ _ _ _ _ _ _ _
    |>.mpr ?_
  refine ⟨?_, rfl, rfl, rfl, rfl, rfl, rfl, rfl, rfl, rfl⟩
  rw [show ((fun p : ℤ × DailyRow => p.1 % 65536) ∘
      (fun r : DailyRow => (yr, r))) =
    (fun _ : DailyRow => (yr % 65536 : ℤ)) from rfl]
  rw [show (List.map (fun _ : DailyRow => (yr % 65536 : ℤ)) rs) =
    List.replicate rs.length (yr % 65536) from List.map_const rs (yr % 65536)]
  rw [hrsl]

set_option maxRecDepth 1000000 in
set_option maxHeartbeats 8000000 in
theorem C6_daily_year_context_cleared_witness :
    (strContains dMarkerEx "DAILY OUTPUT FOR YEAR" = true ∧
     pyIsLeap 2001 = false ∧ c6lines.length = 365) ∧
    read_daily_help_output
        ([[dMarkerEx]] ++ c6lines.map (fun l => [l]) ++ c6trailing) =
      some ⟨List.replicate 365 ((2001 : ℤ) % 65536),
        c6rows.map (fun r => r.day % 65536),
        c6rows.map (·.rain), c6rows.map (·.ru), c6rows.map (·.et),
        c6rows.map (·.ezone), c6rows.map (·.headfirst),
        c6rows.map (·.drainfirst), c6rows.map (·.leakfirst),
        c6rows.map (·.leaklast)⟩ :=
  ⟨⟨by decide, by decide, by decide⟩,
   C6_daily_year_context_cleared dMarkerEx 2001 c6lines c6rows c6trailing
     (by decide) (by decide) (by decide) (by decide) (by decide)
     (by decide) (by decide) (by decide) (by decide)⟩

/-! ## The leading-dimension invariant (C9) -/

theorem vstack_eq {rs rs2 : List (List ℚ)} (h : vstack rs = some rs2) :
    rs2 = rs := by
  cases rs with
  | nil => exact Option.noConfusion h
  | cons r rest =>
    rw [vstack] at h
    split at h
    · exact (Option.some_inj.mp h).symm
    · exact Option.noConfusion h

/-- Closing a block appends exactly one row to each of the six data
accumulators and leaves `years` unchanged. -/
theorem closeBlock_lengths (v : MVars) (a a2 : MAccs)
    (h : closeBlock v a = some a2) :
    a2.years = a.years ∧ a2.rain.length = a.rain.length + 1 ∧
    a2.runoff.length = a.runoff.length + 1 ∧
    a2.evapo.length = a.evapo.length + 1 ∧
    a2.subrunoff.length = a.subrunoff.length + 1 ∧
    a2.percol.length = a.percol.length + 1 ∧
    a2.rechg.length = a.rechg.length + 1 := by
  rw [closeBlock] at h
  obtain ⟨p, hp, h⟩ := obind_some h
  obtain ⟨pv, hpv, h⟩ := obind_some h
  obtain ⟨q, hq, h⟩ := obind_some h
  obtain ⟨rv, hrv, h⟩ := obind_some h
  obtain ⟨e, he, h⟩ := obind_some h
  obtain ⟨ev, hev, h⟩ := obind_some h
  obtain ⟨g, hg, h⟩ := obind_some h
  obtain ⟨gv, hgv, h⟩ := obind_some h
  obtain ⟨c, hc, h⟩ := obind_some h
  obtain ⟨cv, hcv, h⟩ := obind_some h
  cases hsub : v.subrunoff with
  | none =>
    rw [hsub] at h
    obtain ⟨sv, hsv, h⟩ := obind_some h
    obtain rfl := Option.some_inj.mp h
    refine ⟨rfl, ?_, ?_, ?_, ?_, ?_, ?_⟩ <;>
      simp [List.length_append]
  | some s =>
    rw [hsub] at h
    obtain ⟨sv, hsv, h⟩ := obind_some h
    obtain rfl := Option.some_inj.mp h
    refine ⟨rfl, ?_, ?_, ?_, ?_, ?_, ?_⟩ <;>
      simp [List.length_append]

/-- The length invariant is preserved through the monthly loop: a final
accumulator always has its six data lists as long as `years`. -/
theorem monthlyLoop_lenInv (rest : List (List String)) :
    ∀ (mode : Bool) (v : MVars) (a a2 : MAccs),
    monthlyLoop rest mode v a = some a2 → mLenInv mode a → mEqLen a2 := by
  induction rest with
  | nil =>
    intro mode v a a2 h hinv
    cases mode with
    | false =>
      rw [monthlyLoop_end0] at h
      obtain rfl := Option.some_inj.mp h
      exact hinv
    | true => exact Option.noConfusion h
  | cons row rest ih =>
    intro mode v a a2 h hinv
    cases mode with
    | false =>
      cases rest with
      | nil =>
        rw [monthlyLoop_end1] at h
        obtain rfl := Option.some_inj.mp h
        exact hinv
      | cons r2 rs =>
        cases row with
        | nil =>
          rw [show monthlyLoop ([] :: r2 :: rs) false v a =
              monthlyLoop (r2 :: rs) false v a from by
            rw [monthlyLoop]
            simp] at h
          exact ih false v a a2 h hinv
        | cons line tl =>
          rw [show monthlyLoop ((line :: tl) :: r2 :: rs) false v a =
              (if strContains line "MONTHLY TOTALS" then
                match (pySplit line).getLast? with
                | none => none
                | some tok =>
                  match parsePyInt tok with
                  | none => none
                  | some yr =>
                    monthlyLoop (r2 :: rs) true
                      { v with subrunoff := none, percol := none }
                      { a with years := a.years ++ [yr] }
              else if strContains line "FINAL WATER STORAGE" then some a
              else monthlyLoop (r2 :: rs) false v a) from by
            rw [monthlyLoop]
            simp] at h
          by_cases hm : strContains line "MONTHLY TOTALS" = true
          · rw [if_pos hm] at h
            cases hg : (pySplit line).getLast? with
            | none =>
              rw [hg] at h
              exact Option.noConfusion h
            | some tok =>
              rw [hg] at h
              replace h : (match parsePyInt tok with
                | none => none
                | some yr =>
                  monthlyLoop (r2 :: rs) true
                    { v with subrunoff := none, percol := none }
                    { a with years := a.years ++ [yr] }) = some a2 := h
              cases hp : parsePyInt tok with
              | none =>
                rw [hp] at h
                exact Option.noConfusion h
              | some yr =>
                rw [hp] at h
                refine ih true _ _ a2 h ?_
                obtain ⟨e1, e2, e3, e4, e5, e6⟩ := hinv
                have hl : (a.years ++ [yr]).length = a.years.length + 1 := by
                  simp
                refine ⟨?_, ?_, ?_, ?_, ?_, ?_⟩
                · show a.rain.length + 1 = (a.years ++ [yr]).length
                  omega
                · show a.runoff.length + 1 = (a.years ++ [yr]).length
                  omega
                · show a.evapo.length + 1 = (a.years ++ [yr]).length
                  omega
                · show a.subrunoff.length + 1 = (a.years ++ [yr]).length
                  omega
                · show a.percol.length + 1 = (a.years ++ [yr]).length
                  omega
                · show a.rechg.length + 1 = (a.years ++ [yr]).length
                  omega
          · rw [if_neg hm] at h
            by_cases hf : strContains line "FINAL WATER STORAGE" = true
            · rw [if_pos hf] at h
              obtain rfl := Option.some_inj.mp h
              exact hinv
            · rw [if_neg hf] at h
              exact ih false v a a2 h hinv
    | true =>
      cases row with
      | nil =>
        rw [monthlyLoop_block_skipempty] at h
        exact ih true v a a2 h hinv
      | cons line tl =>
        by_cases hs : strContains line "**********" = true
        · cases hc : closeBlock v a with
          | none =>
            have hz : monthlyLoop ((line :: tl) :: rest) true v a = none := by
              cases rest with
              | nil => rw [monthlyLoop.eq_7]; simp [hs, hc]
              | cons r rs =>
                cases r with
                | nil => rw [monthlyLoop.eq_8]; simp [hs, hc]
                | cons s ss => rw [monthlyLoop]; simp [hs, hc]
            rw [hz] at h
            exact Option.noConfusion h
          | some a3 =>
            have hstep : monthlyLoop ((line :: tl) :: rest) true v a =
                monthlyLoop rest false v a3 := by
              cases rest with
              | nil => rw [monthlyLoop.eq_7]; simp [hs, hc]
              | cons r rs =>
                cases r with
                | nil => rw [monthlyLoop.eq_8]; simp [hs, hc]
                | cons s ss =>
                  conv_lhs => rw [monthlyLoop]
                  simp [hs, hc]
            rw [hstep] at h
            refine ih false v a3 a2 h ?_
            obtain ⟨hy, h1, h2, h3, h4, h5, h6⟩ := closeBlock_lengths v a a3 hc
            obtain ⟨e1, e2, e3, e4, e5, e6⟩ := hinv
            exact ⟨by rw [h1, hy]; exact e1, by rw [h2, hy]; exact e2,
              by rw [h3, hy]; exact e3, by rw [h4, hy]; exact e4,
              by rw [h5, hy]; exact e5, by rw [h6, hy]; exact e6⟩
        · cases rest with
          | nil =>
            have hz : monthlyLoop [line :: tl] true v a = none := by
              rw [monthlyLoop.eq_7]
              simp [hs]
            rw [hz] at h
            exact Option.noConfusion h
          | cons r rs =>
            cases r with
            | nil =>
              have hstep : monthlyLoop ((line :: tl) :: [] :: rs) true v a =
                  monthlyLoop ([] :: rs) true v a := by
                rw [monthlyLoop.eq_8]
                simp [hs]
              rw [hstep] at h
              exact ih true v a a2 h hinv
            | cons nline nss =>
              have hstep : monthlyLoop
                  ((line :: tl) :: (nline :: nss) :: rs) true v a =
                  monthlyLoop ((nline :: nss) :: rs) true
                    (stepPair v line nline) a := by
                rw [monthlyLoop]
                simp [hs]
              rw [hstep] at h
              exact ih true _ a a2 h hinv

/-- **C9**.  Every table either parser returns satisfies the data-model
invariant: each of the six 2-D monthly arrays has as many rows, and each
of the nine 1-D daily arrays as many entries, as the table's `years`
array. -/
theorem C9_arrays_match_years_length :
    (∀ (csvread : List (List String)) (d : MonthlyData),
      read_monthly_help_output csvread = some d →
      d.rain.length = d.years.length ∧
      d.runoff.length = d.years.length ∧
      d.evapo.length = d.years.length ∧
      d.subrunoff.length = d.years.length ∧
      d.percolation.length = d.years.length ∧
      d.recharge.length = d.years.length) ∧
    (∀ (csvread : List (List String)) (d : DailyData),
      read_daily_help_output csvread = some d →
      d.days.length = d.years.length ∧
      d.rain.length = d.years.length ∧
      d.runoff.length = d.years.length ∧
      d.et.length = d.years.length ∧
      d.ezone.length = d.years.length ∧
      d.headfirst.length = d.years.length ∧
      d.drainfirst.length = d.years.length ∧
      d.leakfirst.length = d.years.length ∧
      d.leaklast.length = d.years.length) := by
  constructor
  · intro csvread d h
    rw [read_monthly_help_output] at h
    obtain ⟨a, ha, h⟩ := obind_some h
    obtain ⟨rain, hrain, h⟩ := obind_some h
    obtain ⟨runoff, hrunoff, h⟩ := obind_some h
    obtain ⟨evapo, hevapo, h⟩ := obind_some h
    obtain ⟨subr, hsubr, h⟩ := obind_some h
    obtain ⟨perc, hperc, h⟩ := obind_some h
    obtain ⟨rechg, hrechg, h⟩ := obind_some h
    obtain rfl : d = ⟨a.years.map (· % 65536), rain, runoff, evapo, subr,
        perc, rechg⟩ := (Option.some_inj.mp h).symm
    have hinv := monthlyLoop_lenInv csvread false
      ⟨none, none, none, none, none, none⟩ ⟨[], [], [], [], [], [], []⟩
      a ha ⟨rfl, rfl, rfl, rfl, rfl, rfl⟩
    obtain ⟨e1, e2, e3, e4, e5, e6⟩ := hinv
    rw [vstack_eq hrain, vstack_eq hrunoff, vstack_eq hevapo,
      vstack_eq hsubr, vstack_eq hperc, vstack_eq hrechg]
    simp only [List.length_map]
    exact ⟨e1, e2, e3, e4, e5, e6⟩
  · intro csvread d h
    rw [read_daily_help_output] at h
    obtain ⟨st, hst, h⟩ := obind_some h
    obtain rfl : d = ⟨st.rows.map (fun p => p.1 % 65536),
        st.rows.map (fun p => p.2.day % 65536),
        st.rows.map (·.2.rain), st.rows.map (·.2.ru),
        st.rows.map (·.2.et), st.rows.map (·.2.ezone),
        st.rows.map (·.2.headfirst), st.rows.map (·.2.drainfirst),
        st.rows.map (·.2.leakfirst), st.rows.map (·.2.leaklast)⟩ :=
      (Option.some_inj.mp h).symm
    simp [List.length_map]

theorem C9_arrays_match_years_length_witness :
    (read_monthly_help_output mFileEx = some mDataEx ∧
      mDataEx.rain.length = mDataEx.years.length) ∧
    (read_daily_help_output dFileEx = some dDataEx ∧
      dDataEx.days.length = dDataEx.years.length) :=
  ⟨⟨by decide,
    (C9_arrays_match_years_length.1 mFileEx mDataEx (by decide)).1⟩,
   ⟨by decide,
    (C9_arrays_match_years_length.2 dFileEx dDataEx (by decide)).1⟩⟩

end PyHelp

